import Mathlib

/-!
# TransformedModelScalar

A shallow embedding of `TransformedModelScalar.cpp`, the per-model stage of the
software occlusion-culling pipeline: setup, frustum / size classification for two
view slots, and the dispatch of per-mesh transform and binning kernels.

Conventions of the embedding

* `UINT` values are natural numbers; every `+=` on a `UINT` wraps modulo `2 ^ 32`.
* `float` is an arbitrary type `F` carrying `+`, `*`, `1` and a decidable `<`.
  Nothing is assumed about these operations unless a theorem says so, hence the
  results hold for every interpretation of `float`.
* The two slots `idx` are `Fin 2`; the per-slot arrays are functions on `Fin 2`.
* Pointers to source models are addresses into a memory `Nat → CPUTModelDX11 F`;
  `NULL` is `none`.  A dereference of `NULL` or an out-of-bounds array read makes
  the operation return `none`.
* The per-mesh kernels live outside this file.  The dispatchers take the kernel
  as a parameter acting on an arbitrary world `σ` (mesh storage and output
  buffers); choosing `σ := List _` and the recording kernel yields the call trace.
-/

namespace OcclusionCulling

/-! ## Scalars, vectors and matrices -/

/-- Modulus of the 32-bit unsigned type `UINT`. -/
def UINT_MOD : Nat := 2 ^ 32

/-- Three-component vector `float3`. -/
structure float3 (F : Type) where
  x : F
  y : F
  z : F

/-- Four-component vector `float4`, one row of a `float4x4`. -/
structure float4 (F : Type) where
  x : F
  y : F
  z : F
  w : F

/-- Row-major 4×4 matrix `float4x4` with rows `r0 .. r3`. -/
structure float4x4 (F : Type) where
  r0 : float4 F
  r1 : float4 F
  r2 : float4 F
  r3 : float4 F

section Arithmetic

variable {F : Type} [Add F] [Mul F]

/-- Modelled from the spec: `float3::lengthSq` (declared in the math header, not in
this file), the squared length `|v|²` used for `objectSpaceBoundsRadiusSquared`. -/
def float3.lengthSq (v : float3 F) : F :=
  v.x * v.x + v.y * v.y + v.z * v.z

/-- One row of a matrix product: the row vector `r` times the matrix `b`. -/
def float4.mulMatrix (r : float4 F) (b : float4x4 F) : float4 F :=
  { x := r.x * b.r0.x + r.y * b.r1.x + r.z * b.r2.x + r.w * b.r3.x
    y := r.x * b.r0.y + r.y * b.r1.y + r.z * b.r2.y + r.w * b.r3.y
    z := r.x * b.r0.z + r.y * b.r1.z + r.z * b.r2.z + r.w * b.r3.z
    w := r.x * b.r0.w + r.y * b.r1.w + r.z * b.r2.w + r.w * b.r3.w }

/-- Modelled from the spec: `float4x4::operator*` (declared in the math header, not
in this file), the 4×4 product composing the world matrix with a
view-projection-viewport matrix. -/
def float4x4.mul (a b : float4x4 F) : float4x4 F :=
  { r0 := a.r0.mulMatrix b
    r1 := a.r1.mulMatrix b
    r2 := a.r2.mulMatrix b
    r3 := a.r3.mulMatrix b }

end Arithmetic

/-- Write `v` into element `idx` of a two-element array. -/
def setSlot {α : Type} (a : Fin 2 → α) (idx : Fin 2) (v : α) : Fin 2 → α :=
  fun j => if j = idx then v else a j

/-! ## External collaborators -/

/-- Source mesh `CPUTMeshDX11`, as far as this file consumes it. -/
structure CPUTMeshDX11 where
  vertexCount : Nat
  triangleCount : Nat
deriving DecidableEq

/-- Source model `CPUTModelDX11`, as far as this file consumes it.  `GetMesh i`
is `none` when the handle is `NULL`. -/
structure CPUTModelDX11 (F : Type) where
  GetMeshCount : Nat
  GetWorldMatrix : float4x4 F
  boundsCenterOS : float3 F
  boundsHalfOS : float3 F
  boundsCenterWS : float3 F
  boundsHalfWS : float3 F
  GetMesh : Nat → Option CPUTMeshDX11

/-- Per-mesh record `TransformedMeshScalar`: only its counts are read here. -/
structure TransformedMeshScalar where
  mNumVertices : Nat
  mNumTriangles : Nat
deriving DecidableEq, Repr

/-- Modelled from the spec: the default-constructed `TransformedMeshScalar` that
`new TransformedMeshScalar[n]` places in every array element (its constructor is
outside this file). -/
def TransformedMeshScalar.empty : TransformedMeshScalar :=
  { mNumVertices := 0, mNumTriangles := 0 }

/-- Modelled from the spec: `TransformedMeshScalar::Initialize` (outside this
file), `initializeFrom(sourceMesh)`, which takes the counts of the source mesh. -/
def TransformedMeshScalar.Initialize (pMesh : CPUTMeshDX11) : TransformedMeshScalar :=
  { mNumVertices := pMesh.vertexCount, mNumTriangles := pMesh.triangleCount }

/-- Accessor `GetNumVertices`. -/
def TransformedMeshScalar.GetNumVertices (m : TransformedMeshScalar) : Nat := m.mNumVertices

/-- Accessor `GetNumTriangles`. -/
def TransformedMeshScalar.GetNumTriangles (m : TransformedMeshScalar) : Nat := m.mNumTriangles

/-- Frustum of a camera: the external frustum test. -/
structure CPUTFrustum (F : Type) where
  IsVisible : float3 F → float3 F → Bool

/-- Camera `CPUTCamera`, as far as this file consumes it. -/
structure CPUTCamera (F : Type) where
  mFrustum : CPUTFrustum F

/-- View setup `BoxTestSetupScalar`. -/
structure BoxTestSetupScalar (F : Type) where
  mpCamera : CPUTCamera F
  mViewProjViewport : float4x4 F
  radiusThreshold : F

/-! ## The record -/

/-- The class `TransformedModelScalar`. -/
structure TransformedModelScalar (F : Type) where
  mpCPUTModel : Option Nat
  mNumMeshes : Nat
  mNumVertices : Nat
  mNumTriangles : Nat
  mpMeshes : List TransformedMeshScalar
  mWorldMatrix : float4x4 F
  mBBCenterOS : float3 F
  mRadiusSq : F
  mBBCenterWS : float3 F
  mBBHalfWS : float3 F
  mInsideViewFrustum : Fin 2 → Bool
  mTooSmall : Fin 2 → Bool
  mCumulativeMatrix : Fin 2 → float4x4 F
  mpXformedPos : Fin 2 → Option Nat

/-- The constructor `TransformedModelScalar::TransformedModelScalar`, run over the
storage `raw`: members missing from the initialiser list keep what `raw` holds.
The `NULL` mesh array is the empty list. -/
def TransformedModelScalar.ctor {F : Type} (raw : TransformedModelScalar F) :
    TransformedModelScalar F :=
  { raw with
    mpCPUTModel := none
    mNumMeshes := 0
    mNumVertices := 0
    mNumTriangles := 0
    mpMeshes := []
    mInsideViewFrustum := fun _ => false
    mTooSmall := fun _ => false
    mpXformedPos := fun _ => none }

/-- Result of `CreateTransformedMeshes`: either the loop ran to its end, or the
assertion on mesh handle `i` fired, with the record as it stood at that point. -/
inductive SetupOutcome (F : Type) where
  | done (s : TransformedModelScalar F)
  | assertFailed (i : Nat) (s : TransformedModelScalar F)

section Operations

variable {F : Type} [Add F] [Mul F] [One F] [LT F] [DecidableRel (fun a b : F => a < b)]

/-- The `for` loop of `CreateTransformedMeshes`, `remaining = mNumMeshes - i`.
Modelled from the spec: `ASSERT` (a macro defined outside this file) aborts setup
with an error when the handle is `NULL`. -/
def CreateTransformedMeshes.loop (pModel : CPUTModelDX11 F) :
    Nat → Nat → TransformedModelScalar F → SetupOutcome F
  | 0, _, s => .done s
  | remaining + 1, i, s =>
    match pModel.GetMesh i with
    | none => .assertFailed i s
    | some pMesh =>
      let mesh := TransformedMeshScalar.Initialize pMesh
      CreateTransformedMeshes.loop pModel remaining (i + 1)
        { s with
          mpMeshes := s.mpMeshes.set i mesh
          mNumVertices := (s.mNumVertices + mesh.GetNumVertices) % UINT_MOD
          mNumTriangles := (s.mNumTriangles + mesh.GetNumTriangles) % UINT_MOD }

/-- The method `CreateTransformedMeshes(pModel)`; `mem` is the memory holding the
source models. -/
def CreateTransformedMeshes (mem : Nat → CPUTModelDX11 F) (pModel : Nat)
    (s : TransformedModelScalar F) : SetupOutcome F :=
  let model := mem pModel
  let center := model.boundsCenterOS
  let half := model.boundsHalfOS
  CreateTransformedMeshes.loop model model.GetMeshCount 0
    { s with
      mpCPUTModel := some pModel
      mNumMeshes := model.GetMeshCount
      mWorldMatrix := model.GetWorldMatrix
      mBBCenterOS := center
      mRadiusSq := half.lengthSq
      mpMeshes := List.replicate model.GetMeshCount TransformedMeshScalar.empty }

/-- The method `TooSmall(setup, idx)`. -/
def TooSmall (setup : BoxTestSetupScalar F) (idx : Fin 2) (s : TransformedModelScalar F) :
    TransformedModelScalar F :=
  if s.mInsideViewFrustum idx then
    let s1 := { s with
      mCumulativeMatrix :=
        setSlot s.mCumulativeMatrix idx (s.mWorldMatrix.mul setup.mViewProjViewport) }
    let w := s1.mBBCenterOS.x * (s1.mCumulativeMatrix idx).r0.w +
             s1.mBBCenterOS.y * (s1.mCumulativeMatrix idx).r1.w +
             s1.mBBCenterOS.z * (s1.mCumulativeMatrix idx).r2.w +
             (s1.mCumulativeMatrix idx).r3.w
    if 1 < w then
      { s1 with
        mTooSmall := setSlot s1.mTooSmall idx (decide (s1.mRadiusSq < w * setup.radiusThreshold)) }
    else
      { s1 with mTooSmall := setSlot s1.mTooSmall idx false }
  else s

/-- The method `InsideViewFrustum(setup, idx)`; `mem` is the memory holding the
source models at the time of the call.  `none` when `mpCPUTModel` is `NULL`. -/
def InsideViewFrustum (mem : Nat → CPUTModelDX11 F) (setup : BoxTestSetupScalar F)
    (idx : Fin 2) (s : TransformedModelScalar F) : Option (TransformedModelScalar F) :=
  match s.mpCPUTModel with
  | none => none
  | some p =>
    let s0 := { s with
      mBBCenterWS := (mem p).boundsCenterWS
      mBBHalfWS := (mem p).boundsHalfWS }
    let s1 := { s0 with
      mInsideViewFrustum :=
        setSlot s0.mInsideViewFrustum idx
          (setup.mpCamera.mFrustum.IsVisible s0.mBBCenterWS s0.mBBHalfWS) }
    if s1.mInsideViewFrustum idx then
      let s2 := { s1 with
        mCumulativeMatrix :=
          setSlot s1.mCumulativeMatrix idx (s1.mWorldMatrix.mul setup.mViewProjViewport) }
      let w := s2.mBBCenterOS.x * (s2.mCumulativeMatrix idx).r0.w +
               s2.mBBCenterOS.y * (s2.mCumulativeMatrix idx).r1.w +
               s2.mBBCenterOS.z * (s2.mCumulativeMatrix idx).r2.w +
               (s2.mCumulativeMatrix idx).r3.w
      if 1 < w then
        some { s2 with
          mTooSmall :=
            setSlot s2.mTooSmall idx (decide (s2.mRadiusSq < w * setup.radiusThreshold)) }
      else
        some { s2 with mTooSmall := setSlot s2.mTooSmall idx false }
    else
      some s1

/-! ## Dispatch of the per-mesh kernels -/

/-- Arguments of one call `mpMeshes[mesh].TransformVertices(matrix, start, end, idx)`. -/
structure TransformCall (F : Type) where
  mesh : Nat
  cumulativeMatrix : float4x4 F
  start : Nat
  end_ : Nat
  idx : Fin 2

/-- The four output tables handed to the binning entry points (addresses). -/
structure BinBuffers where
  pBin : Nat
  pBinModel : Nat
  pBinMesh : Nat
  pNumTrisInBin : Nat
deriving DecidableEq, Repr

/-- Arguments of one call
`mpMeshes[mesh].BinTransformedTrianglesST/MT(taskId, modelId, meshId, start, end, buffers, idx)`. -/
structure BinCall where
  mesh : Nat
  taskId : Nat
  modelId : Nat
  meshId : Nat
  start : Nat
  end_ : Nat
  buffers : BinBuffers
  idx : Fin 2
deriving DecidableEq, Repr

/-- The `for` loop of `TransformMeshes`, `remaining = mNumMeshes - meshId`. -/
def TransformMeshes.loop {σ : Type} (TransformVertices : TransformCall F → σ → σ)
    (s : TransformedModelScalar F) (start end_ : Nat) (idx : Fin 2) :
    Nat → Nat → Nat → σ → Option σ
  | 0, _, _, world => some world
  | remaining + 1, meshId, totalNumVertices, world =>
    match s.mpMeshes[meshId]? with
    | none => none
    | some mesh =>
      let totalNumVertices := (totalNumVertices + mesh.GetNumVertices) % UINT_MOD
      if totalNumVertices < start then
        TransformMeshes.loop TransformVertices s start end_ idx remaining (meshId + 1)
          totalNumVertices world
      else
        TransformMeshes.loop TransformVertices s start end_ idx remaining (meshId + 1)
          totalNumVertices
          (TransformVertices
            { mesh := meshId, cumulativeMatrix := s.mCumulativeMatrix idx,
              start := start, end_ := end_, idx := idx } world)

/-- The method `TransformMeshes(start, end, pCamera, idx)` (the camera argument is
not used by the body). -/
def TransformMeshes {σ : Type} (TransformVertices : TransformCall F → σ → σ)
    (s : TransformedModelScalar F) (start end_ : Nat) (idx : Fin 2) (world : σ) : Option σ :=
  if s.mInsideViewFrustum idx && !s.mTooSmall idx then
    TransformMeshes.loop TransformVertices s start end_ idx s.mNumMeshes 0 0 world
  else some world

/-- The `for` loop of `BinTransformedTrianglesST`, `remaining = mNumMeshes - meshId`. -/
def BinTransformedTrianglesST.loop {σ : Type} (meshBinST : BinCall → σ → σ)
    (s : TransformedModelScalar F) (taskId modelId start end_ : Nat) (buffers : BinBuffers)
    (idx : Fin 2) : Nat → Nat → Nat → σ → Option σ
  | 0, _, _, world => some world
  | remaining + 1, meshId, totalNumTris, world =>
    match s.mpMeshes[meshId]? with
    | none => none
    | some mesh =>
      let totalNumTris := (totalNumTris + mesh.GetNumTriangles) % UINT_MOD
      if totalNumTris < start then
        BinTransformedTrianglesST.loop meshBinST s taskId modelId start end_ buffers idx
          remaining (meshId + 1) totalNumTris world
      else
        BinTransformedTrianglesST.loop meshBinST s taskId modelId start end_ buffers idx
          remaining (meshId + 1) totalNumTris
          (meshBinST
            { mesh := meshId, taskId := taskId, modelId := modelId, meshId := meshId,
              start := start, end_ := end_, buffers := buffers, idx := idx } world)

/-- The method `BinTransformedTrianglesST`. -/
def BinTransformedTrianglesST {σ : Type} (meshBinST : BinCall → σ → σ)
    (s : TransformedModelScalar F) (taskId modelId start end_ : Nat) (buffers : BinBuffers)
    (idx : Fin 2) (world : σ) : Option σ :=
  if s.mInsideViewFrustum idx && !s.mTooSmall idx then
    BinTransformedTrianglesST.loop meshBinST s taskId modelId start end_ buffers idx
      s.mNumMeshes 0 0 world
  else some world

/-- The `for` loop of `BinTransformedTrianglesMT`, `remaining = mNumMeshes - meshId`. -/
def BinTransformedTrianglesMT.loop {σ : Type} (meshBinMT : BinCall → σ → σ)
    (s : TransformedModelScalar F) (taskId modelId start end_ : Nat) (buffers : BinBuffers)
    (idx : Fin 2) : Nat → Nat → Nat → σ → Option σ
  | 0, _, _, world => some world
  | remaining + 1, meshId, totalNumTris, world =>
    match s.mpMeshes[meshId]? with
    | none => none
    | some mesh =>
      let totalNumTris := (totalNumTris + mesh.GetNumTriangles) % UINT_MOD
      if totalNumTris < start then
        BinTransformedTrianglesMT.loop meshBinMT s taskId modelId start end_ buffers idx
          remaining (meshId + 1) totalNumTris world
      else
        BinTransformedTrianglesMT.loop meshBinMT s taskId modelId start end_ buffers idx
          remaining (meshId + 1) totalNumTris
          (meshBinMT
            { mesh := meshId, taskId := taskId, modelId := modelId, meshId := meshId,
              start := start, end_ := end_, buffers := buffers, idx := idx } world)

/-- The method `BinTransformedTrianglesMT`. -/
def BinTransformedTrianglesMT {σ : Type} (meshBinMT : BinCall → σ → σ)
    (s : TransformedModelScalar F) (taskId modelId start end_ : Nat) (buffers : BinBuffers)
    (idx : Fin 2) (world : σ) : Option σ :=
  if s.mInsideViewFrustum idx && !s.mTooSmall idx then
    BinTransformedTrianglesMT.loop meshBinMT s taskId modelId start end_ buffers idx
      s.mNumMeshes 0 0 world
  else some world

/-- The method `Gather(xformedPos, meshId, triId, idx)`; the per-mesh accessor
`GetOneTriangleData` is a parameter. -/
def Gather {σ : Type} (GetOneTriangleData : Nat → Nat → Nat → Fin 2 → σ → σ)
    (s : TransformedModelScalar F) (xformedPos meshId triId : Nat) (idx : Fin 2) (world : σ) :
    Option σ :=
  match s.mpMeshes[meshId]? with
  | none => none
  | some _ => some (GetOneTriangleData meshId xformedPos triId idx world)

/-! ## Classification runs -/

/-- One classification call made on a record after setup. -/
inductive ClassifyOp (F : Type) where
  | insideViewFrustum (mem : Nat → CPUTModelDX11 F) (setup : BoxTestSetupScalar F) (idx : Fin 2)
  | tooSmall (setup : BoxTestSetupScalar F) (idx : Fin 2)

/-- Perform one classification call. -/
def ClassifyOp.run : ClassifyOp F → TransformedModelScalar F → Option (TransformedModelScalar F)
  | .insideViewFrustum mem setup idx, s => InsideViewFrustum mem setup idx s
  | .tooSmall setup idx, s => some (TooSmall setup idx s)

/-- Perform a sequence of classification calls, first call first. -/
def runOps : List (ClassifyOp F) → TransformedModelScalar F → Option (TransformedModelScalar F)
  | [], s => some s
  | op :: ops, s => (op.run s).bind (runOps ops)

/-- The clip-space `w` of the bounds centre in the words of the spec:
`w = center.x·M.row0.w + center.y·M.row1.w + center.z·M.row2.w + M.row3.w`. -/
def clipW (center : float3 F) (M : float4x4 F) : F :=
  center.x * M.r0.w + center.y * M.r1.w + center.z * M.r2.w + M.r3.w

end Operations

/-- Order facts about `float` used for the monotonicity of the size test.  Each
holds for IEEE-754 arithmetic (comparisons with a NaN are false, rounding is
monotone) and for exact arithmetic in any linearly ordered ring. -/
structure FloatLaws (F : Type) [Zero F] [One F] [Add F] [Mul F] [LT F] [LE F] : Prop where
  lt_trans : ∀ a b c : F, a < b → b < c → a < c
  lt_of_lt_of_le : ∀ a b c : F, a < b → b ≤ c → a < c
  zero_lt_one : (0 : F) < 1
  lt_zero_or_pos : ∀ a b : F, a < b → a < 0 ∨ 0 < b
  pos_of_mul_pos : ∀ a t : F, 0 < a → 0 < a * t → 0 < t
  mul_le_mul_of_pos : ∀ a b t : F, 0 < a → a ≤ b → 0 < t → a * t ≤ b * t
  lengthSq_not_neg : ∀ x y z : F, ¬ (x * x + y * y + z * z < 0)

/-! ## Concrete data over the integers -/

namespace Sample

/-- The zero vector. -/
def origin : float3 ℤ := { x := 0, y := 0, z := 0 }

/-- The identity matrix. -/
def identity : float4x4 ℤ :=
  { r0 := { x := 1, y := 0, z := 0, w := 0 }
    r1 := { x := 0, y := 1, z := 0, w := 0 }
    r2 := { x := 0, y := 0, z := 1, w := 0 }
    r3 := { x := 0, y := 0, z := 0, w := 1 } }

/-- A view-projection-viewport matrix whose last row has `w` component `w`. -/
def viewProj (w : ℤ) : float4x4 ℤ :=
  { r0 := { x := 1, y := 0, z := 0, w := 0 }
    r1 := { x := 0, y := 1, z := 0, w := 0 }
    r2 := { x := 0, y := 0, z := 1, w := 0 }
    r3 := { x := 0, y := 0, z := 0, w := w } }

/-- Storage on which the constructor runs. -/
def raw : TransformedModelScalar ℤ :=
  { mpCPUTModel := some 7
    mNumMeshes := 3
    mNumVertices := 5
    mNumTriangles := 9
    mpMeshes := []
    mWorldMatrix := viewProj 5
    mBBCenterOS := origin
    mRadiusSq := 0
    mBBCenterWS := origin
    mBBHalfWS := origin
    mInsideViewFrustum := fun _ => true
    mTooSmall := fun _ => true
    mCumulativeMatrix := fun _ => viewProj 3
    mpXformedPos := fun _ => some 1 }

/-- A source model with meshes of the given triangle counts (twice as many
vertices each), identity world matrix, bounds centred at the origin with
half-extents `(2, 0, 0)`, hence squared radius `4`. -/
def model (tris : List Nat) : CPUTModelDX11 ℤ :=
  { GetMeshCount := tris.length
    GetWorldMatrix := identity
    boundsCenterOS := origin
    boundsHalfOS := { x := 2, y := 0, z := 0 }
    boundsCenterWS := origin
    boundsHalfWS := { x := 2, y := 0, z := 0 }
    GetMesh := fun i => tris[i]?.map (fun n => { vertexCount := 2 * n, triangleCount := n }) }

/-- Memory holding `model tris` at every address. -/
def mem (tris : List Nat) : Nat → CPUTModelDX11 ℤ := fun _ => model tris

/-- A view setup with frustum verdict `visible`, clip-space `w` of the origin equal
to `w`, and size threshold `threshold`. -/
def view (visible : Bool) (w threshold : ℤ) : BoxTestSetupScalar ℤ :=
  { mpCamera := { mFrustum := { IsVisible := fun _ _ => visible } }
    mViewProjViewport := viewProj w
    radiusThreshold := threshold }

/-- A record in the given classification state with the given meshes. -/
def record (inside tooSmall : Bool) (meshes : List TransformedMeshScalar) :
    TransformedModelScalar ℤ :=
  { raw with
    mNumMeshes := meshes.length
    mpMeshes := meshes
    mWorldMatrix := identity
    mRadiusSq := 4
    mInsideViewFrustum := fun _ => inside
    mTooSmall := fun _ => tooSmall }

/-- Outcome of constructing a record on `raw` and setting it up from `model tris`. -/
def setupOutcome (tris : List Nat) : SetupOutcome ℤ :=
  CreateTransformedMeshes (mem tris) 0 raw.ctor

/-- The record left by `setupOutcome`. -/
def afterSetup (tris : List Nat) : TransformedModelScalar ℤ :=
  match setupOutcome tris with
  | .done s => s
  | .assertFailed _ s => s

end Sample

/-! ## Dispatch: reference notions -/

/-- The recording kernel: appends its call to the trace. -/
def recordCall {α : Type} (call : α) (trace : List α) : List α := trace ++ [call]

/-- Vertex counts of the meshes of a record, in mesh order. -/
def TransformedModelScalar.vertexCounts {F : Type} (s : TransformedModelScalar F) : List Nat :=
  s.mpMeshes.map TransformedMeshScalar.GetNumVertices

/-- Triangle counts of the meshes of a record, in mesh order. -/
def TransformedModelScalar.triangleCounts {F : Type} (s : TransformedModelScalar F) : List Nat :=
  s.mpMeshes.map TransformedMeshScalar.GetNumTriangles

/-- The inclusive running total `count(0) + ... + count(i)` as a 32-bit unsigned
value. -/
def inclusiveTotal (counts : List Nat) (i : Nat) : Nat :=
  (counts.take (i + 1)).sum % UINT_MOD

/-- The meshes whose inclusive running total reaches or exceeds `start`, in
increasing mesh order. -/
def qualifying (counts : List Nat) (start : Nat) : List Nat :=
  (List.range counts.length).filter (fun i => decide (start ≤ inclusiveTotal counts i))

/-- The global index `prefix(i)` of the first item of mesh `i`. -/
def meshBase (counts : List Nat) (i : Nat) : Nat :=
  (counts.take i).sum

/-- Mesh `i` owns a global index in `[start, end)`: its interval
`[prefix(i), prefix(i) + count(i))` intersects the range. -/
def intersects (counts : List Nat) (start end_ i : Nat) : Prop :=
  ∃ g, start ≤ g ∧ g < end_ ∧ meshBase counts i ≤ g ∧ g < meshBase counts i + counts.getD i 0

/-- The call `TransformMeshes` is expected to make on mesh `i`. -/
def transformCallFor {F : Type} (s : TransformedModelScalar F) (start end_ : Nat) (idx : Fin 2)
    (i : Nat) : TransformCall F :=
  { mesh := i, cumulativeMatrix := s.mCumulativeMatrix idx, start := start, end_ := end_,
    idx := idx }

/-- The call a binning dispatcher is expected to make on mesh `i`. -/
def binCallFor (taskId modelId start end_ : Nat) (buffers : BinBuffers) (idx : Fin 2)
    (i : Nat) : BinCall :=
  { mesh := i, taskId := taskId, modelId := modelId, meshId := i, start := start,
    end_ := end_, buffers := buffers, idx := idx }

/-- Modelled from the spec: the local clipping contract of the per-mesh binning
primitive (`TransformedMeshScalar::BinTransformedTrianglesST/MT`, outside this
file).  Called with the global range, the primitive of a mesh with `count`
triangles starting at global index `base` processes exactly its local triangles
`t < count` with `start ≤ base + t < end`, one bin entry `(meshId, t)` each
(multi-tile duplication ignored). -/
def clippingKernel (counts : List Nat) (call : BinCall) (bins : List (Nat × Nat)) :
    List (Nat × Nat) :=
  bins ++
    ((List.range (counts.getD call.mesh 0)).filter
      (fun t => decide (call.start ≤ meshBase counts call.mesh + t ∧
        meshBase counts call.mesh + t < call.end_))).map (fun t => (call.meshId, t))

/-- The global triangle index of a bin entry `(meshId, local triangle)`. -/
def globalTriangle (counts : List Nat) (entry : Nat × Nat) : Nat :=
  meshBase counts entry.1 + entry.2

/-- The walk shared by the three dispatchers, over the list of the remaining
counts: a running 32-bit total, a skip while it is below `start`, otherwise the
effect `k meshId`. -/
def walk {σ : Type} (k : Nat → σ → σ) (start : Nat) : List Nat → Nat → Nat → σ → σ
  | [], _, _, world => world
  | c :: cs, meshId, total, world =>
    if (total + c) % UINT_MOD < start then
      walk k start cs (meshId + 1) ((total + c) % UINT_MOD) world
    else
      walk k start cs (meshId + 1) ((total + c) % UINT_MOD) (k meshId world)

/-! ## Reference notions for setup and classification -/

section ReferenceClassification

variable {F : Type} [Add F] [Mul F] [One F] [LT F] [DecidableRel (fun a b : F => a < b)]

/-- The first step of frustum classification in the words of the spec: re-read the
world-space bounds from the source model and store the frustum verdict into
`insideFrustum[idx]`.  `none` when no source model is bound. -/
def storeFrustumVerdict (mem : Nat → CPUTModelDX11 F) (setup : BoxTestSetupScalar F)
    (idx : Fin 2) (s : TransformedModelScalar F) : Option (TransformedModelScalar F) :=
  match s.mpCPUTModel with
  | none => none
  | some p =>
    some { s with
      mBBCenterWS := (mem p).boundsCenterWS
      mBBHalfWS := (mem p).boundsHalfWS
      mInsideViewFrustum :=
        setSlot s.mInsideViewFrustum idx
          (setup.mpCamera.mFrustum.IsVisible (mem p).boundsCenterWS (mem p).boundsHalfWS) }

/-- Frustum classification in the words of the spec: the verdict is stored first,
then the standalone size test `TooSmall` runs. -/
def classifyThenTooSmall (mem : Nat → CPUTModelDX11 F) (setup : BoxTestSetupScalar F)
    (idx : Fin 2) (s : TransformedModelScalar F) : Option (TransformedModelScalar F) :=
  (storeFrustumVerdict mem setup idx s).map (TooSmall setup idx)

/-- The per-slot classification state of a record. -/
def slotState (idx : Fin 2) (s : TransformedModelScalar F) : Bool × Bool × float4x4 F :=
  (s.mInsideViewFrustum idx, s.mTooSmall idx, s.mCumulativeMatrix idx)

end ReferenceClassification

/-- The record in an outcome of setup. -/
def SetupOutcome.record {F : Type} : SetupOutcome F → TransformedModelScalar F
  | .done s => s
  | .assertFailed _ s => s

/-- The mesh index at which setup stopped: the index of the failed assertion, or
`limit` (the mesh count) when the loop ran to its end. -/
def SetupOutcome.stoppedAt {F : Type} (limit : Nat) : SetupOutcome F → Nat
  | .done _ => limit
  | .assertFailed k _ => k

/-- The effect of one successful iteration of the setup loop on mesh `i`. -/
def setupStep {F : Type} (s : TransformedModelScalar F) (i : Nat) (pMesh : CPUTMeshDX11) :
    TransformedModelScalar F :=
  { s with
    mpMeshes := s.mpMeshes.set i (TransformedMeshScalar.Initialize pMesh)
    mNumVertices :=
      (s.mNumVertices + (TransformedMeshScalar.Initialize pMesh).GetNumVertices) % UINT_MOD
    mNumTriangles :=
      (s.mNumTriangles + (TransformedMeshScalar.Initialize pMesh).GetNumTriangles) % UINT_MOD }

/-- The record with which `CreateTransformedMeshes` enters its loop: the
assignments made before the first iteration. -/
def setupEntry {F : Type} [Add F] [Mul F] (mem : Nat → CPUTModelDX11 F) (pModel : Nat)
    (s : TransformedModelScalar F) : TransformedModelScalar F :=
  { s with
    mpCPUTModel := some pModel
    mNumMeshes := (mem pModel).GetMeshCount
    mWorldMatrix := (mem pModel).GetWorldMatrix
    mBBCenterOS := (mem pModel).boundsCenterOS
    mRadiusSq := (mem pModel).boundsHalfOS.lengthSq
    mpMeshes := List.replicate (mem pModel).GetMeshCount TransformedMeshScalar.empty }

namespace Sample

/-- Memory holding, at every address, `model tris` with the handle of mesh `k`
replaced by `NULL`. -/
def memNull (tris : List Nat) (k : Nat) : Nat → CPUTModelDX11 ℤ := fun _ =>
  { model tris with
    GetMesh := fun i => if i = k then none else (model tris).GetMesh i }

/-- The record `afterSetup tris` classified for slot 0 by a view in which the model
is visible with `w = 1`, hence not too small. -/
def classified (tris : List Nat) : TransformedModelScalar ℤ :=
  match InsideViewFrustum (mem tris) (view true 1 3) 0 (afterSetup tris) with
  | some s => s
  | none => afterSetup tris

/-- The record `afterSetup tris` after a second `CreateTransformedMeshes` from the
same source model. -/
def afterSecondSetup (tris : List Nat) : TransformedModelScalar ℤ :=
  (CreateTransformedMeshes (mem tris) 0 (afterSetup tris)).record

/-- The record `afterSecondSetup tris` classified for slot 0 by a view in which the
model is visible with `w = 1`, hence not too small. -/
def classifiedTwice (tris : List Nat) : TransformedModelScalar ℤ :=
  match InsideViewFrustum (mem tris) (view true 1 3) 0 (afterSecondSetup tris) with
  | some s => s
  | none => afterSecondSetup tris

end Sample

/-! ## Classification: lemmas -/

theorem createLoop_flags {F : Type} (pModel : CPUTModelDX11 F) :
    ∀ (remaining i : Nat) (s s0 : TransformedModelScalar F),
      CreateTransformedMeshes.loop pModel remaining i s = .done s0 →
        s0.mInsideViewFrustum = s.mInsideViewFrustum ∧ s0.mTooSmall = s.mTooSmall := by
  intro remaining
  induction remaining with
  | zero =>
    intro i s s0 h
    simp only [CreateTransformedMeshes.loop, SetupOutcome.done.injEq] at h
    subst h
    exact ⟨rfl, rfl⟩
  | succ n ih =>
    intro i s s0 h
    unfold CreateTransformedMeshes.loop at h
    cases hm : pModel.GetMesh i with
    | none => simp [hm] at h
    | some pMesh =>
      simp only [hm] at h
      have := ih _ _ _ h
      simpa using this

theorem create_flags {F : Type} [Add F] [Mul F] (mem : Nat → CPUTModelDX11 F) (pModel : Nat)
    (s s0 : TransformedModelScalar F) (h : CreateTransformedMeshes mem pModel s = .done s0) :
    s0.mInsideViewFrustum = s.mInsideViewFrustum ∧ s0.mTooSmall = s.mTooSmall := by
  unfold CreateTransformedMeshes at h
  have := createLoop_flags _ _ _ _ _ h
  simpa using this

theorem createLoop_frame {F : Type} (pModel : CPUTModelDX11 F) :
    ∀ (remaining i : Nat) (s s0 : TransformedModelScalar F),
      CreateTransformedMeshes.loop pModel remaining i s = .done s0 →
        s0.mpMeshes.length = s.mpMeshes.length ∧ s0.mNumMeshes = s.mNumMeshes ∧
        s0.mRadiusSq = s.mRadiusSq ∧ s0.mpCPUTModel = s.mpCPUTModel := by
  intro remaining
  induction remaining with
  | zero =>
    intro i s s0 h
    simp only [CreateTransformedMeshes.loop, SetupOutcome.done.injEq] at h
    subst h
    exact ⟨rfl, rfl, rfl, rfl⟩
  | succ n ih =>
    intro i s s0 h
    unfold CreateTransformedMeshes.loop at h
    cases hm : pModel.GetMesh i with
    | none => simp [hm] at h
    | some pMesh =>
      simp only [hm] at h
      have := ih _ _ _ h
      simpa using this

/-- Setup leaves a mesh array of `mNumMeshes` elements, the squared radius
`|half|²` of the source bounds, and a bound source model. -/
theorem create_wellFormed {F : Type} [Add F] [Mul F] (mem : Nat → CPUTModelDX11 F)
    (pModel : Nat) (s s0 : TransformedModelScalar F)
    (h : CreateTransformedMeshes mem pModel s = .done s0) :
    s0.mpMeshes.length = s0.mNumMeshes ∧
    s0.mRadiusSq = (mem pModel).boundsHalfOS.lengthSq ∧
    s0.mpCPUTModel = some pModel := by
  unfold CreateTransformedMeshes at h
  obtain ⟨h1, h2, h3, h4⟩ := createLoop_frame _ _ _ _ _ h
  simp only [List.length_replicate] at h1 h2 h3 h4
  exact ⟨by rw [h1, h2], h3, h4⟩

section ClassificationLemmas

variable {F : Type} [Add F] [Mul F] [One F] [LT F] [DecidableRel (fun a b : F => a < b)]

@[simp] theorem setSlot_same {α : Type} (a : Fin 2 → α) (idx : Fin 2) (v : α) :
    setSlot a idx v idx = v := by
  simp [setSlot]

theorem setSlot_other {α : Type} (a : Fin 2 → α) (idx j : Fin 2) (v : α) (h : j ≠ idx) :
    setSlot a idx v j = a j := by
  simp [setSlot, h]

@[simp] theorem setSlot_setSlot {α : Type} (a : Fin 2 → α) (idx : Fin 2) (v u : α) :
    setSlot (setSlot a idx v) idx u = setSlot a idx u := by
  funext j
  by_cases h : j = idx <;> simp [setSlot, h]

theorem setSlot_eq_self {α : Type} (a : Fin 2 → α) (idx : Fin 2) (v : α) (h : a idx = v) :
    setSlot a idx v = a := by
  funext j
  by_cases hj : j = idx
  · subst hj; simp [setSlot, h]
  · simp [setSlot, hj]

/-- Both methods compute the same clip-space `w` as the spec's formula. -/
theorem tooSmall_flag (setup : BoxTestSetupScalar F) (idx : Fin 2)
    (s : TransformedModelScalar F) (h : s.mInsideViewFrustum idx = true) :
    (TooSmall setup idx s).mTooSmall idx =
      (decide (1 < clipW s.mBBCenterOS (s.mWorldMatrix.mul setup.mViewProjViewport)) &&
        decide (s.mRadiusSq <
          clipW s.mBBCenterOS (s.mWorldMatrix.mul setup.mViewProjViewport) *
            setup.radiusThreshold)) := by
  unfold TooSmall clipW
  simp only [h, if_true, setSlot_same]
  split <;> rename_i hw <;> simp [hw]

theorem insideViewFrustum_flag (mem : Nat → CPUTModelDX11 F) (setup : BoxTestSetupScalar F)
    (idx : Fin 2) (s s1 : TransformedModelScalar F)
    (h : InsideViewFrustum mem setup idx s = some s1)
    (hv : s1.mInsideViewFrustum idx = true) :
    s1.mTooSmall idx =
      (decide (1 < clipW s.mBBCenterOS (s.mWorldMatrix.mul setup.mViewProjViewport)) &&
        decide (s.mRadiusSq <
          clipW s.mBBCenterOS (s.mWorldMatrix.mul setup.mViewProjViewport) *
            setup.radiusThreshold)) := by
  unfold InsideViewFrustum at h
  cases hp : s.mpCPUTModel with
  | none => simp [hp] at h
  | some p =>
    simp only [hp, setSlot_same] at h
    unfold clipW
    split at h
    · split at h <;> rename_i hw <;> simp only [Option.some.injEq] at h <;> subst h <;>
        simp [hw]
    · rename_i hvis
      simp only [Option.some.injEq] at h
      subst h
      simp only [setSlot_same] at hv
      exact absurd hv hvis

/-- A call never creates the combination "too small, not inside": if it holds after
the call, `mTooSmall[idx]` was already set before it. -/
theorem classify_step_stale (op : ClassifyOp F) (s s1 : TransformedModelScalar F) (idx : Fin 2)
    (h : op.run s = some s1) (ht : s1.mTooSmall idx = true)
    (hi : s1.mInsideViewFrustum idx = false) : s.mTooSmall idx = true := by
  cases op with
  | tooSmall setup j =>
    simp only [ClassifyOp.run, Option.some.injEq] at h
    subst h
    unfold TooSmall at ht hi
    by_cases hj : idx = j
    · subst hj
      cases hv : s.mInsideViewFrustum idx with
      | false => simpa [hv] using ht
      | true =>
        simp only [hv, if_true] at hi
        split at hi <;> simp [hv] at hi
    · cases hv : s.mInsideViewFrustum j with
      | false => simpa [hv] using ht
      | true =>
        simp only [hv, if_true] at ht
        split at ht <;> simpa [setSlot, hj] using ht
  | insideViewFrustum mem setup j =>
    simp only [ClassifyOp.run] at h
    unfold InsideViewFrustum at h
    cases hp : s.mpCPUTModel with
    | none => simp [hp] at h
    | some p =>
      simp only [hp, setSlot_same] at h
      by_cases hj : idx = j
      · subst hj
        split at h
        · rename_i hvis
          split at h <;> simp only [Option.some.injEq] at h <;> subst h <;>
            simp [hvis] at hi
        · simp only [Option.some.injEq] at h
          subst h
          simpa using ht
      · split at h
        · split at h <;> simp only [Option.some.injEq] at h <;> subst h <;>
            simpa [setSlot, hj] using ht
        · simp only [Option.some.injEq] at h
          subst h
          simpa using ht

/-- Along a run started in a state without the stale combination, the combination
"too small, not inside" only appears after a state in which both flags were set. -/
theorem runOps_stale (idx : Fin 2) :
    ∀ (ops : List (ClassifyOp F)) (s0 s : TransformedModelScalar F),
      (s0.mTooSmall idx = true → s0.mInsideViewFrustum idx = true) →
      runOps ops s0 = some s → s.mTooSmall idx = true → s.mInsideViewFrustum idx = false →
      ∃ pre suf s1, ops = pre ++ suf ∧ runOps pre s0 = some s1 ∧
        s1.mTooSmall idx = true ∧ s1.mInsideViewFrustum idx = true := by
  intro ops
  induction ops with
  | nil =>
    intro s0 s hgood h ht hi
    simp only [runOps, Option.some.injEq] at h
    subst h
    rw [hgood ht] at hi
    exact absurd hi (by simp)
  | cons op ops ih =>
    intro s0 s hgood h ht hi
    simp only [runOps] at h
    cases hr : op.run s0 with
    | none => simp [hr] at h
    | some s' =>
      simp only [hr, Option.some_bind] at h
      by_cases hg : s'.mTooSmall idx = true → s'.mInsideViewFrustum idx = true
      · obtain ⟨pre, suf, s1, hops, hrun, h1, h2⟩ := ih s' s hg h ht hi
        refine ⟨op :: pre, suf, s1, by simp [hops], ?_, h1, h2⟩
        simp [runOps, hr, hrun]
      · have ht' : s'.mTooSmall idx = true := by
          by_contra hc
          exact hg (fun hx => absurd hx hc)
        have hi' : s'.mInsideViewFrustum idx = false := by
          cases hb : s'.mInsideViewFrustum idx with
          | false => rfl
          | true => exact absurd (fun _ => hb) hg
        have h0 := classify_step_stale op s0 s' idx hr ht' hi'
        exact ⟨[], op :: ops, s0, rfl, rfl, h0, hgood h0⟩

/-- A second identical call of `InsideViewFrustum` changes nothing. -/
theorem insideViewFrustum_fixed (mem : Nat → CPUTModelDX11 F) (setup : BoxTestSetupScalar F)
    (idx : Fin 2) (s s1 : TransformedModelScalar F)
    (h : InsideViewFrustum mem setup idx s = some s1) :
    InsideViewFrustum mem setup idx s1 = some s1 := by
  unfold InsideViewFrustum at h ⊢
  cases hp : s.mpCPUTModel with
  | none => simp [hp] at h
  | some p =>
    simp only [hp, setSlot_same] at h
    split at h
    · rename_i hvis
      split at h <;> rename_i hw <;> simp only [Option.some.injEq] at h <;> subst h <;>
        simp [hp, hvis, hw]
    · rename_i hvis
      simp only [Option.some.injEq] at h
      subst h
      simp [hp, hvis]

end ClassificationLemmas

/-- Exact arithmetic in a linearly ordered ring satisfies the order facts. -/
theorem floatLaws_of_linearOrderedRing {F : Type} [LinearOrderedRing F] : FloatLaws F where
  lt_trans := fun _ _ _ h1 h2 => lt_trans h1 h2
  lt_of_lt_of_le := fun _ _ _ h1 h2 => lt_of_lt_of_le h1 h2
  zero_lt_one := zero_lt_one
  lt_zero_or_pos := fun a b h => by
    rcases lt_or_le a 0 with h0 | h0
    · exact Or.inl h0
    · exact Or.inr (lt_of_le_of_lt h0 h)
  pos_of_mul_pos := fun a t ha h => (mul_pos_iff_of_pos_left ha).1 h
  mul_le_mul_of_pos := fun a b t _ hab ht => mul_le_mul_of_nonneg_right hab ht.le
  lengthSq_not_neg := fun x y z => not_lt.2
    (add_nonneg (add_nonneg (mul_self_nonneg x) (mul_self_nonneg y)) (mul_self_nonneg z))

/-- The integers satisfy the order facts. -/
theorem floatLaws_int : FloatLaws ℤ := floatLaws_of_linearOrderedRing

/-! ## Dispatch: lemmas -/

theorem transformLoop_eq_walk {F σ : Type} (k : TransformCall F → σ → σ)
    (s : TransformedModelScalar F) (start end_ : Nat) (idx : Fin 2) :
    ∀ (n meshId total : Nat) (world : σ), meshId + n = s.mpMeshes.length →
      TransformMeshes.loop k s start end_ idx n meshId total world =
        some (walk (fun i => k (transformCallFor s start end_ idx i)) start
          ((s.mpMeshes.drop meshId).map TransformedMeshScalar.GetNumVertices)
          meshId total world) := by
  intro n
  induction n with
  | zero =>
    intro meshId total world h
    have h0 : meshId = s.mpMeshes.length := by omega
    subst h0
    simp [TransformMeshes.loop, walk]
  | succ n ih =>
    intro meshId total world h
    have hlt : meshId < s.mpMeshes.length := by omega
    rw [List.drop_eq_getElem_cons hlt]
    simp only [TransformMeshes.loop, List.getElem?_eq_getElem hlt, List.map_cons, walk]
    split
    · rw [ih _ _ _ (by omega)]
    · rw [ih _ _ _ (by omega)]
      rfl

theorem binSTLoop_eq_walk {F σ : Type} (k : BinCall → σ → σ)
    (s : TransformedModelScalar F) (taskId modelId start end_ : Nat) (buffers : BinBuffers)
    (idx : Fin 2) :
    ∀ (n meshId total : Nat) (world : σ), meshId + n = s.mpMeshes.length →
      BinTransformedTrianglesST.loop k s taskId modelId start end_ buffers idx n meshId total
          world =
        some (walk (fun i => k (binCallFor taskId modelId start end_ buffers idx i)) start
          ((s.mpMeshes.drop meshId).map TransformedMeshScalar.GetNumTriangles)
          meshId total world) := by
  intro n
  induction n with
  | zero =>
    intro meshId total world h
    have h0 : meshId = s.mpMeshes.length := by omega
    subst h0
    simp [BinTransformedTrianglesST.loop, walk]
  | succ n ih =>
    intro meshId total world h
    have hlt : meshId < s.mpMeshes.length := by omega
    rw [List.drop_eq_getElem_cons hlt]
    simp only [BinTransformedTrianglesST.loop, List.getElem?_eq_getElem hlt, List.map_cons, walk]
    split
    · rw [ih _ _ _ (by omega)]
    · rw [ih _ _ _ (by omega)]
      rfl

theorem binLoops_agree {F σ : Type} (k : BinCall → σ → σ)
    (s : TransformedModelScalar F) (taskId modelId start end_ : Nat) (buffers : BinBuffers)
    (idx : Fin 2) :
    ∀ (n meshId total : Nat) (world : σ),
      BinTransformedTrianglesMT.loop k s taskId modelId start end_ buffers idx n meshId total
          world =
        BinTransformedTrianglesST.loop k s taskId modelId start end_ buffers idx n meshId total
          world := by
  intro n
  induction n with
  | zero =>
    intro meshId total world
    simp [BinTransformedTrianglesMT.loop, BinTransformedTrianglesST.loop]
  | succ n ih =>
    intro meshId total world
    simp only [BinTransformedTrianglesMT.loop, BinTransformedTrianglesST.loop]
    cases s.mpMeshes[meshId]? with
    | none => rfl
    | some mesh =>
      simp only
      split
      · exact ih _ _ _
      · exact ih _ _ _

theorem binDispatchers_agree {F σ : Type} (k : BinCall → σ → σ)
    (s : TransformedModelScalar F) (taskId modelId start end_ : Nat) (buffers : BinBuffers)
    (idx : Fin 2) (world : σ) :
    BinTransformedTrianglesMT k s taskId modelId start end_ buffers idx world =
      BinTransformedTrianglesST k s taskId modelId start end_ buffers idx world := by
  unfold BinTransformedTrianglesMT BinTransformedTrianglesST
  split
  · exact binLoops_agree k s taskId modelId start end_ buffers idx _ _ _ _
  · rfl

theorem walk_eq_foldl {σ : Type} (k : Nat → σ → σ) (start : Nat) :
    ∀ (cs : List Nat) (i t : Nat) (world : σ),
      walk k start cs i t world =
        List.foldl (fun w j => k j w) world
          (((List.range cs.length).filter
            (fun j => decide (start ≤ (t + (cs.take (j + 1)).sum) % UINT_MOD))).map
              (fun j => j + i)) := by
  intro cs
  induction cs with
  | nil => intro i t world; simp [walk]
  | cons c cs ih =>
    intro i t world
    have hmod : ∀ x, ((t + c) % UINT_MOD + x) % UINT_MOD = (t + (c + x)) % UINT_MOD := by
      intro x
      rw [Nat.mod_add_mod, Nat.add_assoc]
    simp only [walk, List.length_cons, List.range_succ_eq_map, List.filter_cons,
      List.take_succ_cons, List.sum_cons, List.take_zero, List.sum_nil, Nat.add_zero,
      List.filter_map, List.map_map]
    by_cases h : (t + c) % UINT_MOD < start
    · have h2 : ¬ start ≤ (t + c) % UINT_MOD := by omega
      simp only [h, h2, if_true, decide_False, Bool.false_eq_true, if_false]
      rw [ih]
      congr 1
      simp only [Function.comp_def, hmod]
      rw [List.map_map]
      apply List.map_congr_left
      intro j _
      simp only [Function.comp_apply, Nat.succ_eq_add_one]
      omega
    · have h2 : start ≤ (t + c) % UINT_MOD := by omega
      simp only [h, h2, if_false, decide_True, if_true, List.map_cons, List.foldl_cons,
        Nat.zero_add]
      rw [ih]
      congr 1
      simp only [Function.comp_def, hmod]
      rw [List.map_map]
      apply List.map_congr_left
      intro j _
      simp only [Function.comp_apply, Nat.succ_eq_add_one]
      omega

theorem walk_zero_eq_foldl {σ : Type} (k : Nat → σ → σ) (start : Nat) (cs : List Nat)
    (world : σ) :
    walk k start cs 0 0 world = List.foldl (fun w j => k j w) world (qualifying cs start) := by
  rw [walk_eq_foldl]
  simp [qualifying, inclusiveTotal]

theorem foldl_recordCall {α : Type} (calls init : List α) :
    List.foldl (fun w c => recordCall c w) init calls = init ++ calls := by
  induction calls generalizing init with
  | nil => simp
  | cons c cs ih =>
    rw [List.foldl_cons, ih]
    simp [recordCall]

theorem transformMeshes_eq_foldl {F σ : Type} (k : TransformCall F → σ → σ)
    (s : TransformedModelScalar F) (start end_ : Nat) (idx : Fin 2) (world : σ)
    (hwf : s.mpMeshes.length = s.mNumMeshes)
    (hin : s.mInsideViewFrustum idx = true) (hts : s.mTooSmall idx = false) :
    TransformMeshes k s start end_ idx world =
      some (List.foldl (fun w c => k c w) world
        ((qualifying s.vertexCounts start).map (transformCallFor s start end_ idx))) := by
  unfold TransformMeshes
  simp only [hin, hts, Bool.not_false, Bool.and_self, if_true]
  rw [transformLoop_eq_walk k s start end_ idx _ _ _ _ (by omega)]
  simp only [List.drop_zero]
  rw [walk_zero_eq_foldl, List.foldl_map]
  rfl

theorem binST_eq_foldl {F σ : Type} (k : BinCall → σ → σ)
    (s : TransformedModelScalar F) (taskId modelId start end_ : Nat) (buffers : BinBuffers)
    (idx : Fin 2) (world : σ)
    (hwf : s.mpMeshes.length = s.mNumMeshes)
    (hin : s.mInsideViewFrustum idx = true) (hts : s.mTooSmall idx = false) :
    BinTransformedTrianglesST k s taskId modelId start end_ buffers idx world =
      some (List.foldl (fun w c => k c w) world
        ((qualifying s.triangleCounts start).map
          (binCallFor taskId modelId start end_ buffers idx))) := by
  unfold BinTransformedTrianglesST
  simp only [hin, hts, Bool.not_false, Bool.and_self, if_true]
  rw [binSTLoop_eq_walk k s taskId modelId start end_ buffers idx _ _ _ _ (by omega)]
  simp only [List.drop_zero]
  rw [walk_zero_eq_foldl, List.foldl_map]
  rfl

theorem binMT_eq_foldl {F σ : Type} (k : BinCall → σ → σ)
    (s : TransformedModelScalar F) (taskId modelId start end_ : Nat) (buffers : BinBuffers)
    (idx : Fin 2) (world : σ)
    (hwf : s.mpMeshes.length = s.mNumMeshes)
    (hin : s.mInsideViewFrustum idx = true) (hts : s.mTooSmall idx = false) :
    BinTransformedTrianglesMT k s taskId modelId start end_ buffers idx world =
      some (List.foldl (fun w c => k c w) world
        ((qualifying s.triangleCounts start).map
          (binCallFor taskId modelId start end_ buffers idx))) := by
  rw [binDispatchers_agree]
  exact binST_eq_foldl k s taskId modelId start end_ buffers idx world hwf hin hts

/-! ## Claims on classification -/

section ClassificationClaims

variable {F : Type} [Add F] [Mul F] [One F] [LT F] [DecidableRel (fun a b : F => a < b)]

/-- C1, as stated, fails: after setup, a visible classification of slot 0 that finds
the model too small (`w = 2`, radius² `4 < 2 · 3`) followed by a classification with
a negative frustum verdict leaves `mTooSmall[0]` true while `mInsideViewFrustum[0]`
is false. -/
theorem gating_invariant_counterexample :
    ∃ s0 s,
      CreateTransformedMeshes (Sample.mem []) 0 Sample.raw.ctor = .done s0 ∧
      runOps
        [ClassifyOp.insideViewFrustum (Sample.mem []) (Sample.view true 2 3) 0,
         ClassifyOp.insideViewFrustum (Sample.mem []) (Sample.view false 2 3) 0] s0 = some s ∧
      s.mTooSmall 0 = true ∧ s.mInsideViewFrustum 0 = false :=
  ⟨_, _, rfl, rfl, rfl, rfl⟩

/-- C1, amended: directly after construction and setup both flags of both slots are
false, and in every state reached by classification calls in which `mTooSmall[idx]`
is true while `mInsideViewFrustum[idx]` is false, the value of `mTooSmall[idx]` is a
stale one: an earlier state of the same run had `mTooSmall[idx]` and
`mInsideViewFrustum[idx]` both true. -/
theorem gating_only_stale (raw : TransformedModelScalar F) (mem : Nat → CPUTModelDX11 F)
    (pModel : Nat) (s0 : TransformedModelScalar F)
    (hsetup : CreateTransformedMeshes mem pModel raw.ctor = .done s0) :
    (∀ idx, s0.mInsideViewFrustum idx = false ∧ s0.mTooSmall idx = false) ∧
    ∀ (ops : List (ClassifyOp F)) (s : TransformedModelScalar F) (idx : Fin 2),
      runOps ops s0 = some s → s.mTooSmall idx = true → s.mInsideViewFrustum idx = false →
      ∃ pre suf s1, ops = pre ++ suf ∧ runOps pre s0 = some s1 ∧
        s1.mTooSmall idx = true ∧ s1.mInsideViewFrustum idx = true := by
  obtain ⟨hi, ht⟩ := create_flags mem pModel raw.ctor s0 hsetup
  have hinit : ∀ idx, s0.mInsideViewFrustum idx = false ∧ s0.mTooSmall idx = false := by
    intro idx
    rw [hi, ht]
    exact ⟨rfl, rfl⟩
  refine ⟨hinit, ?_⟩
  intro ops s idx hrun hts hins
  refine runOps_stale idx ops s0 s ?_ hrun hts hins
  intro h
  rw [(hinit idx).2] at h
  exact absurd h (by simp)

/-- Witness for C1: the amended statement at the sample record set up from a model
without meshes. -/
theorem gating_only_stale_witness :
    CreateTransformedMeshes (Sample.mem []) 0 Sample.raw.ctor = .done (Sample.afterSetup []) ∧
    ((∀ idx, (Sample.afterSetup []).mInsideViewFrustum idx = false ∧
        (Sample.afterSetup []).mTooSmall idx = false) ∧
      ∀ (ops : List (ClassifyOp ℤ)) (s : TransformedModelScalar ℤ) (idx : Fin 2),
        runOps ops (Sample.afterSetup []) = some s → s.mTooSmall idx = true →
        s.mInsideViewFrustum idx = false →
        ∃ pre suf s1, ops = pre ++ suf ∧ runOps pre (Sample.afterSetup []) = some s1 ∧
          s1.mTooSmall idx = true ∧ s1.mInsideViewFrustum idx = true) :=
  ⟨rfl, gating_only_stale Sample.raw (Sample.mem []) 0 (Sample.afterSetup []) rfl⟩

/-- C2: with `M = worldMatrix × viewProjViewport` and `w` the clip-space `w` of the
bounds centre, after `InsideViewFrustum` returns with a positive frustum verdict, and
after `TooSmall` on a slot already inside the frustum, `mTooSmall[idx]` is true
exactly when `1 < w` and `radiusSq < w * radiusThreshold`; it is false whenever
`w ≤ 1` (that is, whenever `1 < w` fails).  `InsideViewFrustum` returns whenever the
record is bound to a source model.  For centre = origin, radius² = 4, `w = 2` and
threshold 3 the flag is true. -/
theorem size_decision_postcondition (mem : Nat → CPUTModelDX11 F)
    (setup : BoxTestSetupScalar F) (idx : Fin 2) (s : TransformedModelScalar F) :
    ((InsideViewFrustum mem setup idx s).isSome = s.mpCPUTModel.isSome) ∧
    (∀ s1, InsideViewFrustum mem setup idx s = some s1 → s1.mInsideViewFrustum idx = true →
      (s1.mTooSmall idx = true ↔
        (1 < clipW s.mBBCenterOS (s.mWorldMatrix.mul setup.mViewProjViewport) ∧
          s.mRadiusSq <
            clipW s.mBBCenterOS (s.mWorldMatrix.mul setup.mViewProjViewport) *
              setup.radiusThreshold))) ∧
    (s.mInsideViewFrustum idx = true →
      ((TooSmall setup idx s).mTooSmall idx = true ↔
        (1 < clipW s.mBBCenterOS (s.mWorldMatrix.mul setup.mViewProjViewport) ∧
          s.mRadiusSq <
            clipW s.mBBCenterOS (s.mWorldMatrix.mul setup.mViewProjViewport) *
              setup.radiusThreshold))) ∧
    (¬ 1 < clipW s.mBBCenterOS (s.mWorldMatrix.mul setup.mViewProjViewport) →
      (∀ s1, InsideViewFrustum mem setup idx s = some s1 → s1.mInsideViewFrustum idx = true →
        s1.mTooSmall idx = false) ∧
      (s.mInsideViewFrustum idx = true → (TooSmall setup idx s).mTooSmall idx = false)) ∧
    ((Sample.record true false []).mBBCenterOS = Sample.origin ∧
      (Sample.record true false []).mRadiusSq = 4 ∧
      clipW (Sample.record true false []).mBBCenterOS
        ((Sample.record true false []).mWorldMatrix.mul
          (Sample.view true 2 3).mViewProjViewport) = 2 ∧
      (Sample.view true 2 3).radiusThreshold = 3 ∧
      (TooSmall (Sample.view true 2 3) 0 (Sample.record true false [])).mTooSmall 0 = true ∧
      (InsideViewFrustum (Sample.mem []) (Sample.view true 2 3) 0
          (Sample.record false false [])).map (fun s1 => s1.mTooSmall 0) = some true) := by
  refine ⟨?_, ?_, ?_, ?_, ?_⟩
  · unfold InsideViewFrustum
    cases hp : s.mpCPUTModel with
    | none => rfl
    | some p =>
      simp only [Option.isSome_some]
      split
      · split <;> rfl
      · rfl
  · intro s1 h hv
    rw [insideViewFrustum_flag mem setup idx s s1 h hv]
    simp
  · intro hv
    rw [tooSmall_flag setup idx s hv]
    simp
  · intro hw
    refine ⟨?_, ?_⟩
    · intro s1 h hv
      rw [insideViewFrustum_flag mem setup idx s s1 h hv]
      simp [hw]
    · intro hv
      rw [tooSmall_flag setup idx s hv]
      simp [hw]
  · exact ⟨rfl, rfl, rfl, rfl, rfl, rfl⟩

/-- Witness for C2: the size decision at the sample record with `w = 2`,
radius² = 4 and threshold 3, reached through `InsideViewFrustum` and through
`TooSmall`. -/
theorem size_decision_postcondition_witness :
    (∃ s1, InsideViewFrustum (Sample.mem []) (Sample.view true 2 3) 0
        (Sample.record false false []) = some s1 ∧ s1.mInsideViewFrustum 0 = true ∧
        s1.mTooSmall 0 = true) ∧
    (Sample.record true false []).mInsideViewFrustum 0 = true ∧
    ((TooSmall (Sample.view true 2 3) 0 (Sample.record true false [])).mTooSmall 0 = true ↔
      ((1 : ℤ) < 2 ∧ (4 : ℤ) < 2 * 3)) :=
  ⟨⟨_, rfl, rfl, rfl⟩, rfl,
    (size_decision_postcondition (Sample.mem []) (Sample.view true 2 3) 0
      (Sample.record true false [])).2.2.1 rfl⟩

/-- C3: for a record whose squared radius is the squared length of its half-extents
(as setup computes it), a fixed threshold and two view setups with clip-space `w`
values `1 < w1 ≤ w2`, a visible model classified too small at `w1` is classified too
small at `w2`.  The order facts `FloatLaws` are all that is used of `float`. -/
theorem tooSmall_monotone_in_w [Zero F] [LE F] (L : FloatLaws F)
    (s : TransformedModelScalar F) (half : float3 F) (hr : s.mRadiusSq = half.lengthSq)
    (setup1 setup2 : BoxTestSetupScalar F)
    (hthr : setup1.radiusThreshold = setup2.radiusThreshold) (idx : Fin 2)
    (hvis : s.mInsideViewFrustum idx = true)
    (h1 : 1 < clipW s.mBBCenterOS (s.mWorldMatrix.mul setup1.mViewProjViewport))
    (h12 : clipW s.mBBCenterOS (s.mWorldMatrix.mul setup1.mViewProjViewport) ≤
      clipW s.mBBCenterOS (s.mWorldMatrix.mul setup2.mViewProjViewport))
    (hsmall : (TooSmall setup1 idx s).mTooSmall idx = true) :
    (TooSmall setup2 idx s).mTooSmall idx = true := by
  rw [tooSmall_flag setup1 idx s hvis] at hsmall
  rw [tooSmall_flag setup2 idx s hvis]
  simp only [Bool.and_eq_true, decide_eq_true_eq] at hsmall ⊢
  obtain ⟨_, hlt⟩ := hsmall
  have hw2 := L.lt_of_lt_of_le _ _ _ h1 h12
  refine ⟨hw2, ?_⟩
  have hw1pos := L.lt_trans _ _ _ L.zero_lt_one h1
  have hprod : 0 < clipW s.mBBCenterOS (s.mWorldMatrix.mul setup1.mViewProjViewport) *
      setup1.radiusThreshold := by
    rcases L.lt_zero_or_pos _ _ hlt with hneg | hpos
    · rw [hr] at hneg
      exact absurd hneg (L.lengthSq_not_neg _ _ _)
    · exact hpos
  have htpos := L.pos_of_mul_pos _ _ hw1pos hprod
  have hmono := L.mul_le_mul_of_pos _ _ _ hw1pos h12 htpos
  rw [← hthr]
  exact L.lt_of_lt_of_le _ _ _ hlt hmono

/-- Witness for C3: radius² `4 = |(2,0,0)|²`, threshold 3, `w1 = 2` and `w2 = 5`. -/
theorem tooSmall_monotone_in_w_witness :
    (TooSmall (Sample.view true 2 3) 0 (Sample.record true false [])).mTooSmall 0 = true ∧
    (TooSmall (Sample.view true 5 3) 0 (Sample.record true false [])).mTooSmall 0 = true :=
  ⟨rfl,
    tooSmall_monotone_in_w floatLaws_int (Sample.record true false [])
      { x := 2, y := 0, z := 0 } rfl (Sample.view true 2 3) (Sample.view true 5 3) rfl 0 rfl
      (by decide) (by decide) rfl⟩

/-- C6: calling `InsideViewFrustum` twice in a row with identical inputs leaves the
same record as calling it once, in particular the same `mInsideViewFrustum[idx]`,
`mTooSmall[idx]` and `mCumulativeMatrix[idx]`. -/
theorem insideViewFrustum_idempotent (mem : Nat → CPUTModelDX11 F)
    (setup : BoxTestSetupScalar F) (idx : Fin 2) (s : TransformedModelScalar F) :
    (InsideViewFrustum mem setup idx s).bind (InsideViewFrustum mem setup idx) =
      InsideViewFrustum mem setup idx s ∧
    ∀ s1 s2, InsideViewFrustum mem setup idx s = some s1 →
      InsideViewFrustum mem setup idx s1 = some s2 →
      s2.mInsideViewFrustum idx = s1.mInsideViewFrustum idx ∧
      s2.mTooSmall idx = s1.mTooSmall idx ∧
      s2.mCumulativeMatrix idx = s1.mCumulativeMatrix idx := by
  refine ⟨?_, ?_⟩
  · cases h : InsideViewFrustum mem setup idx s with
    | none => rfl
    | some s1 => exact insideViewFrustum_fixed mem setup idx s s1 h
  · intro s1 s2 h1 h2
    rw [insideViewFrustum_fixed mem setup idx s s1 h1] at h2
    simp only [Option.some.injEq] at h2
    subst h2
    exact ⟨rfl, rfl, rfl⟩

/-- Witness for C6: two identical visible classifications of the sample record. -/
theorem insideViewFrustum_idempotent_witness :
    (InsideViewFrustum (Sample.mem []) (Sample.view true 2 3) 0
      (Sample.record false false [])).isSome = true ∧
    (InsideViewFrustum (Sample.mem []) (Sample.view true 2 3) 0
        (Sample.record false false [])).bind
        (InsideViewFrustum (Sample.mem []) (Sample.view true 2 3) 0) =
      InsideViewFrustum (Sample.mem []) (Sample.view true 2 3) 0
        (Sample.record false false []) :=
  ⟨rfl,
    (insideViewFrustum_idempotent (Sample.mem []) (Sample.view true 2 3) 0
      (Sample.record false false [])).1⟩

end ClassificationClaims

/-! ## Dispatch: lemmas on ranges and the clipping contract -/

theorem take_sum_le (cs : List Nat) (k : Nat) : (cs.take k).sum ≤ cs.sum := by
  have := List.sum_take_add_sum_drop cs k
  omega

theorem take_succ_sum (cs : List Nat) (i : Nat) (h : i < cs.length) :
    (cs.take (i + 1)).sum = meshBase cs i + cs.getD i 0 := by
  rw [List.take_succ, List.sum_append, List.getElem?_eq_getElem h]
  simp [meshBase, List.getD_eq_getElem?_getD, List.getElem?_eq_getElem h]

theorem inclusiveTotal_exact (cs : List Nat) (i : Nat) (h : i < cs.length)
    (hsum : cs.sum < UINT_MOD) : inclusiveTotal cs i = meshBase cs i + cs.getD i 0 := by
  unfold inclusiveTotal
  rw [Nat.mod_eq_of_lt (lt_of_le_of_lt (take_sum_le cs (i + 1)) hsum)]
  exact take_succ_sum cs i h

theorem mem_qualifying (cs : List Nat) (start i : Nat) :
    i ∈ qualifying cs start ↔ i < cs.length ∧ start ≤ inclusiveTotal cs i := by
  simp [qualifying]

theorem qualifying_nodup (cs : List Nat) (start : Nat) : (qualifying cs start).Nodup :=
  List.Nodup.filter _ (List.nodup_range _)

theorem intersects_lt_length (cs : List Nat) (start end_ i : Nat)
    (h : intersects cs start end_ i) : i < cs.length := by
  obtain ⟨g, _, _, h3, h4⟩ := h
  by_contra hc
  have : cs.getD i 0 = 0 := by
    simp [List.getD_eq_getElem?_getD, List.getElem?_eq_none (Nat.le_of_not_lt hc)]
  omega

theorem map_mesh_binCallFor (taskId modelId start end_ : Nat) (buffers : BinBuffers)
    (idx : Fin 2) (l : List Nat) :
    (l.map (binCallFor taskId modelId start end_ buffers idx)).map BinCall.mesh = l := by
  simp [List.map_map, Function.comp_def, binCallFor]

theorem map_mesh_transformCallFor {F : Type} (s : TransformedModelScalar F) (start end_ : Nat)
    (idx : Fin 2) (l : List Nat) :
    (l.map (transformCallFor s start end_ idx)).map TransformCall.mesh = l := by
  simp [List.map_map, Function.comp_def, transformCallFor]

theorem not_qualifying_of_sum_lt (cs : List Nat) (start i : Nat)
    (h : (cs.take (i + 1)).sum < start) : i ∉ qualifying cs start := by
  rw [mem_qualifying]
  rintro ⟨_, h2⟩
  have : inclusiveTotal cs i ≤ (cs.take (i + 1)).sum := Nat.mod_le _ _
  omega

theorem binST_eq_walk {F σ : Type} (k : BinCall → σ → σ)
    (s : TransformedModelScalar F) (taskId modelId start end_ : Nat) (buffers : BinBuffers)
    (idx : Fin 2) (world : σ)
    (hwf : s.mpMeshes.length = s.mNumMeshes)
    (hin : s.mInsideViewFrustum idx = true) (hts : s.mTooSmall idx = false) :
    BinTransformedTrianglesST k s taskId modelId start end_ buffers idx world =
      some (walk (fun i => k (binCallFor taskId modelId start end_ buffers idx i)) start
        s.triangleCounts 0 0 world) := by
  unfold BinTransformedTrianglesST
  simp only [hin, hts, Bool.not_false, Bool.and_self, if_true]
  rw [binSTLoop_eq_walk k s taskId modelId start end_ buffers idx _ _ _ _ (by omega)]
  simp only [List.drop_zero]
  rfl

theorem filter_range'_interval (start end_ n : Nat) (h : end_ ≤ n) :
    (List.range' 0 n).filter (fun g => decide (start ≤ g ∧ g < end_)) =
      List.range' start (end_ - start) := by
  by_cases hse : start ≤ end_
  · have hsplit : List.range' 0 n =
        List.range' 0 start ++ (List.range' (0 + start) (end_ - start) ++
          List.range' (0 + start + (end_ - start)) (n - end_)) := by
      rw [List.range'_append_1, List.range'_append_1]
      congr 1
      omega
    rw [hsplit, List.filter_append, List.filter_append]
    have h1 : (List.range' 0 start).filter (fun g => decide (start ≤ g ∧ g < end_)) = [] := by
      rw [List.filter_eq_nil_iff]
      intro a ha
      rw [List.mem_range'_1] at ha
      simp only [decide_eq_true_eq]
      omega
    have h2 : (List.range' (0 + start) (end_ - start)).filter
        (fun g => decide (start ≤ g ∧ g < end_)) = List.range' (0 + start) (end_ - start) := by
      rw [List.filter_eq_self]
      intro a ha
      rw [List.mem_range'_1] at ha
      simp only [decide_eq_true_eq]
      omega
    have h3 : (List.range' (0 + start + (end_ - start)) (n - end_)).filter
        (fun g => decide (start ≤ g ∧ g < end_)) = [] := by
      rw [List.filter_eq_nil_iff]
      intro a ha
      rw [List.mem_range'_1] at ha
      simp only [decide_eq_true_eq]
      omega
    rw [h1, h2, h3]
    simp
  · have h0 : end_ - start = 0 := by omega
    rw [h0, List.range'_zero, List.filter_eq_nil_iff]
    intro a _
    simp only [decide_eq_true_eq]
    omega

/-- Invariant of the walk run with the clipping kernel: the global triangles binned
from the remaining meshes `cs` are those of `[start, end)` that the meshes own. -/
theorem walk_clipping (all : List Nat) (taskId modelId start end_ : Nat) (buffers : BinBuffers)
    (idx : Fin 2) (hsum : all.sum < UINT_MOD) :
    ∀ (cs pre : List Nat) (bins : List (Nat × Nat)), all = pre ++ cs →
      (walk (fun i => clippingKernel all (binCallFor taskId modelId start end_ buffers idx i))
          start cs pre.length pre.sum bins).map (globalTriangle all) =
        bins.map (globalTriangle all) ++
          (List.range' pre.sum cs.sum).filter (fun g => decide (start ≤ g ∧ g < end_)) := by
  intro cs
  induction cs with
  | nil => intro pre bins _; simp [walk]
  | cons c cs ih =>
    intro pre bins hall
    have hall2 : all = (pre ++ [c]) ++ cs := by simp [hall]
    have hle : pre.sum + c ≤ all.sum := by
      rw [hall]; simp only [List.sum_append, List.sum_cons]; omega
    have hmod : (pre.sum + c) % UINT_MOD = pre.sum + c := Nat.mod_eq_of_lt (by omega)
    have hih := ih (pre ++ [c]) 
    simp only [List.length_append, List.length_singleton, List.sum_append, List.sum_cons,
      List.sum_nil, Nat.add_zero] at hih
    have hsplit : List.range' pre.sum (c + cs.sum) =
        List.range' pre.sum c ++ List.range' (pre.sum + c) cs.sum := by
      rw [List.range'_append_1, Nat.add_comm]
    simp only [walk, hmod, List.sum_cons, hsplit, List.filter_append]
    by_cases hskip : pre.sum + c < start
    · simp only [hskip, if_true]
      rw [hih bins hall2]
      have h1 : (List.range' pre.sum c).filter (fun g => decide (start ≤ g ∧ g < end_)) = [] := by
        rw [List.filter_eq_nil_iff]
        intro a ha
        rw [List.mem_range'_1] at ha
        simp only [decide_eq_true_eq]
        omega
      rw [h1, List.nil_append]
    · simp only [hskip, if_false]
      rw [hih _ hall2]
      have hbase : meshBase all pre.length = pre.sum := by
        simp [meshBase, hall]
      have hcount : all.getD pre.length 0 = c := by
        rw [hall, List.getD_append_right _ _ _ _ (Nat.le_refl _)]
        simp
      have hk : (clippingKernel all (binCallFor taskId modelId start end_ buffers idx pre.length)
          bins).map (globalTriangle all) =
          bins.map (globalTriangle all) ++
            (List.range' pre.sum c).filter (fun g => decide (start ≤ g ∧ g < end_)) := by
        simp only [clippingKernel, binCallFor, List.map_append, List.map_map, hbase, hcount,
          List.range'_eq_map_range, List.filter_map]
        congr 1
        apply List.map_congr_left
        intro t _
        simp [globalTriangle, hbase]
      rw [hk, List.append_assoc]

theorem foldl_clipping_valid (counts : List Nat) :
    ∀ (calls : List BinCall) (bins : List (Nat × Nat)),
      (∀ c ∈ calls, c.meshId = c.mesh) →
      (∀ e ∈ bins, e.2 < counts.getD e.1 0) →
      ∀ e ∈ List.foldl (fun w c => clippingKernel counts c w) bins calls,
        e.2 < counts.getD e.1 0 := by
  intro calls
  induction calls with
  | nil => intro bins _ hb; simpa using hb
  | cons c cs ih =>
    intro bins hc hb
    rw [List.foldl_cons]
    apply ih
    · intro c' hc'
      exact hc c' (List.mem_cons_of_mem _ hc')
    · intro e he
      unfold clippingKernel at he
      rcases List.mem_append.1 he with h | h
      · exact hb e h
      · obtain ⟨t, ht, rfl⟩ := List.mem_map.1 h
        have ht2 := (List.mem_filter.1 ht).1
        rw [List.mem_range] at ht2
        rw [hc c (List.mem_cons_self _ _)]
        exact ht2

/-! ## Claims on dispatch -/

section DispatchClaims

variable {F : Type}

/-- C4, as stated, fails when the 32-bit running total wraps: with meshes of 2,
4294967295 and 5 triangles (stored total `6` after wrapping) and the range `[3, 5)`,
`end ≤ totalTriangleCount` holds and triangles 3 and 4 belong to mesh 1, but the
running total at mesh 1 is `1 < start`, so only mesh 2 is visited and, with every
kernel honouring its clipping contract, no triangle is processed. -/
theorem binning_partition_counterexample :
    5 ≤ ([2, 4294967295, 5] : List Nat).sum % UINT_MOD ∧
    5 ≤ ([2, 4294967295, 5] : List Nat).sum ∧
    (Sample.record true false [⟨0, 2⟩, ⟨0, 4294967295⟩, ⟨0, 5⟩]).triangleCounts =
      [2, 4294967295, 5] ∧
    BinTransformedTrianglesST (clippingKernel [2, 4294967295, 5])
      (Sample.record true false [⟨0, 2⟩, ⟨0, 4294967295⟩, ⟨0, 5⟩])
      0 0 3 5 ⟨0, 0, 0, 0⟩ 0 [] = some [] ∧
    BinTransformedTrianglesMT (clippingKernel [2, 4294967295, 5])
      (Sample.record true false [⟨0, 2⟩, ⟨0, 4294967295⟩, ⟨0, 5⟩])
      0 0 3 5 ⟨0, 0, 0, 0⟩ 0 [] = some [] ∧
    List.range' 3 (5 - 3) = [3, 4] := by
  decide

/-- C4, amended: for a mesh list whose total triangle count is below `2 ^ 32` and
every range `[start, end)` with `end` at most that total, on a slot classified
visible and not too small (mesh array of `mNumMeshes` elements), when each per-mesh
kernel honours its local clipping contract, `BinTransformedTrianglesST` and
`BinTransformedTrianglesMT` return the same bin entries; every entry is a valid
local triangle of its mesh; and the global triangles of the entries are exactly
those of `[start, end)`, in order, each once.  For meshes of 100 and 50 triangles
and the range `[80, 120)` the entries are the local triangles `[80, 100)` of mesh 0
followed by `[0, 20)` of mesh 1, 40 in all. -/
theorem binning_partition (s : TransformedModelScalar F) (idx : Fin 2)
    (hwf : s.mpMeshes.length = s.mNumMeshes)
    (hin : s.mInsideViewFrustum idx = true) (hts : s.mTooSmall idx = false)
    (hsum : s.triangleCounts.sum < UINT_MOD)
    (taskId modelId start end_ : Nat) (hend : end_ ≤ s.triangleCounts.sum)
    (buffers : BinBuffers) :
    (∃ bins,
      BinTransformedTrianglesST (clippingKernel s.triangleCounts) s taskId modelId start end_
        buffers idx [] = some bins ∧
      BinTransformedTrianglesMT (clippingKernel s.triangleCounts) s taskId modelId start end_
        buffers idx [] = some bins ∧
      (∀ e ∈ bins, e.2 < s.triangleCounts.getD e.1 0) ∧
      bins.map (globalTriangle s.triangleCounts) = List.range' start (end_ - start)) ∧
    (BinTransformedTrianglesST (clippingKernel [100, 50])
        (Sample.record true false [⟨200, 100⟩, ⟨100, 50⟩]) 0 0 80 120 ⟨0, 0, 0, 0⟩ 0 [] =
      some ((List.range' 80 20).map (fun t => (0, t)) ++ (List.range 20).map (fun t => (1, t))) ∧
     BinTransformedTrianglesMT (clippingKernel [100, 50])
        (Sample.record true false [⟨200, 100⟩, ⟨100, 50⟩]) 0 0 80 120 ⟨0, 0, 0, 0⟩ 0 [] =
      some ((List.range' 80 20).map (fun t => (0, t)) ++ (List.range 20).map (fun t => (1, t))) ∧
     ((List.range' 80 20).map (fun t => ((0 : Nat), t)) ++
        (List.range 20).map (fun t => ((1 : Nat), t))).length = 40) := by
  refine ⟨⟨walk (fun i => clippingKernel s.triangleCounts
      (binCallFor taskId modelId start end_ buffers idx i)) start s.triangleCounts 0 0 [],
    ?_, ?_, ?_, ?_⟩, by decide⟩
  · exact binST_eq_walk _ s taskId modelId start end_ buffers idx [] hwf hin hts
  · rw [binDispatchers_agree]
    exact binST_eq_walk _ s taskId modelId start end_ buffers idx [] hwf hin hts
  · rw [walk_zero_eq_foldl]
    have hmap := List.foldl_map (binCallFor taskId modelId start end_ buffers idx)
      (fun w c => clippingKernel s.triangleCounts c w) (qualifying s.triangleCounts start)
      ([] : List (Nat × Nat))
    rw [← hmap]
    apply foldl_clipping_valid
    · intro c hc
      obtain ⟨j, _, rfl⟩ := List.mem_map.1 hc
      rfl
    · intro e he
      simp at he
  · have h := walk_clipping s.triangleCounts taskId modelId start end_ buffers idx hsum
      s.triangleCounts [] [] (by simp)
    simp only [List.length_nil, List.sum_nil, List.map_nil, List.nil_append] at h
    rw [h]
    exact filter_range'_interval start end_ _ hend

/-- Witness for C4: meshes of 100 and 50 triangles, range `[80, 120)`. -/
theorem binning_partition_witness :
    (Sample.record true false [⟨200, 100⟩, ⟨100, 50⟩]).triangleCounts.sum < UINT_MOD ∧
    120 ≤ (Sample.record true false [⟨200, 100⟩, ⟨100, 50⟩]).triangleCounts.sum ∧
    ∃ bins,
      BinTransformedTrianglesST
        (clippingKernel (Sample.record true false [⟨200, 100⟩, ⟨100, 50⟩]).triangleCounts)
        (Sample.record true false [⟨200, 100⟩, ⟨100, 50⟩]) 0 0 80 120 ⟨0, 0, 0, 0⟩ 0 [] =
        some bins ∧
      BinTransformedTrianglesMT
        (clippingKernel (Sample.record true false [⟨200, 100⟩, ⟨100, 50⟩]).triangleCounts)
        (Sample.record true false [⟨200, 100⟩, ⟨100, 50⟩]) 0 0 80 120 ⟨0, 0, 0, 0⟩ 0 [] =
        some bins ∧
      (∀ e ∈ bins,
        e.2 < (Sample.record true false [⟨200, 100⟩, ⟨100, 50⟩]).triangleCounts.getD e.1 0) ∧
      bins.map (globalTriangle (Sample.record true false [⟨200, 100⟩, ⟨100, 50⟩]).triangleCounts) =
        List.range' 80 (120 - 80) :=
  ⟨by decide, by decide,
    (binning_partition (Sample.record true false [⟨200, 100⟩, ⟨100, 50⟩]) 0 rfl rfl rfl
      (by decide) 0 0 80 120 (by decide) ⟨0, 0, 0, 0⟩).1⟩

/-- C5: when `mInsideViewFrustum[idx]` is false or `mTooSmall[idx]` is true,
`TransformMeshes`, `BinTransformedTrianglesST` and `BinTransformedTrianglesMT`
make no per-mesh kernel call (the recorded trace stays empty) and, whatever the
kernels are, return with the world (mesh storage and output tables) unchanged. -/
theorem gated_noop (s : TransformedModelScalar F) (idx : Fin 2)
    (hgate : s.mInsideViewFrustum idx = false ∨ s.mTooSmall idx = true) :
    (∀ (start end_ : Nat),
      TransformMeshes recordCall s start end_ idx [] = some []) ∧
    (∀ (taskId modelId start end_ : Nat) (buffers : BinBuffers),
      BinTransformedTrianglesST recordCall s taskId modelId start end_ buffers idx [] = some [] ∧
      BinTransformedTrianglesMT recordCall s taskId modelId start end_ buffers idx [] =
        some []) ∧
    (∀ (σ : Type) (k : TransformCall F → σ → σ) (start end_ : Nat) (world : σ),
      TransformMeshes k s start end_ idx world = some world) ∧
    (∀ (σ : Type) (k : BinCall → σ → σ) (taskId modelId start end_ : Nat)
        (buffers : BinBuffers) (world : σ),
      BinTransformedTrianglesST k s taskId modelId start end_ buffers idx world = some world ∧
      BinTransformedTrianglesMT k s taskId modelId start end_ buffers idx world =
        some world) := by
  have hcond : (s.mInsideViewFrustum idx && !s.mTooSmall idx) = false := by
    rcases hgate with h | h <;> simp [h]
  refine ⟨?_, ?_, ?_, ?_⟩
  · intro start end_
    simp [TransformMeshes, hcond]
  · intro taskId modelId start end_ buffers
    simp [BinTransformedTrianglesST, BinTransformedTrianglesMT, hcond]
  · intro σ k start end_ world
    simp [TransformMeshes, hcond]
  · intro σ k taskId modelId start end_ buffers world
    simp [BinTransformedTrianglesST, BinTransformedTrianglesMT, hcond]

/-- Witness for C5: slot 1 of a two-mesh record with `mInsideViewFrustum[1] = false`;
all three dispatchers leave the trace empty. -/
theorem gated_noop_witness :
    (Sample.record false false [⟨200, 100⟩, ⟨100, 50⟩]).mInsideViewFrustum 1 = false ∧
    TransformMeshes recordCall (Sample.record false false [⟨200, 100⟩, ⟨100, 50⟩]) 0 300 1 [] =
      some [] ∧
    BinTransformedTrianglesST recordCall (Sample.record false false [⟨200, 100⟩, ⟨100, 50⟩])
      0 0 80 120 ⟨0, 0, 0, 0⟩ 1 [] = some [] ∧
    BinTransformedTrianglesMT recordCall (Sample.record false false [⟨200, 100⟩, ⟨100, 50⟩])
      0 0 80 120 ⟨0, 0, 0, 0⟩ 1 [] = some [] :=
  ⟨rfl,
    (gated_noop (Sample.record false false [⟨200, 100⟩, ⟨100, 50⟩]) 1 (Or.inl rfl)).1 0 300,
    ((gated_noop (Sample.record false false [⟨200, 100⟩, ⟨100, 50⟩]) 1 (Or.inl rfl)).2.1
      0 0 80 120 ⟨0, 0, 0, 0⟩).1,
    ((gated_noop (Sample.record false false [⟨200, 100⟩, ⟨100, 50⟩]) 1 (Or.inl rfl)).2.1
      0 0 80 120 ⟨0, 0, 0, 0⟩).2⟩

/-- C9: on a slot classified visible and not too small, of a record whose mesh
array has `mNumMeshes` elements, the kernel calls of `TransformMeshes` (resp. of
`BinTransformedTrianglesST` / `MT`) are exactly, in increasing mesh order, one call
for each mesh `i` whose inclusive running 32-bit total of vertex (resp. triangle)
counts is at least `start`; each call receives the unchanged `start`, `end`, the
slot and `mCumulativeMatrix[idx]` (resp. the task id, model id, mesh id `i` and the
output tables).  The effect on the world is that of these calls in this order. -/
theorem dispatch_trace (s : TransformedModelScalar F) (idx : Fin 2)
    (hwf : s.mpMeshes.length = s.mNumMeshes)
    (hin : s.mInsideViewFrustum idx = true) (hts : s.mTooSmall idx = false)
    (taskId modelId start end_ : Nat) (buffers : BinBuffers) :
    TransformMeshes recordCall s start end_ idx [] =
      some ((qualifying s.vertexCounts start).map (transformCallFor s start end_ idx)) ∧
    BinTransformedTrianglesST recordCall s taskId modelId start end_ buffers idx [] =
      some ((qualifying s.triangleCounts start).map
        (binCallFor taskId modelId start end_ buffers idx)) ∧
    BinTransformedTrianglesMT recordCall s taskId modelId start end_ buffers idx [] =
      some ((qualifying s.triangleCounts start).map
        (binCallFor taskId modelId start end_ buffers idx)) ∧
    (∀ (σ : Type) (k : TransformCall F → σ → σ) (world : σ),
      TransformMeshes k s start end_ idx world =
        some (List.foldl (fun w c => k c w) world
          ((qualifying s.vertexCounts start).map (transformCallFor s start end_ idx)))) ∧
    (∀ (σ : Type) (k : BinCall → σ → σ) (world : σ),
      BinTransformedTrianglesST k s taskId modelId start end_ buffers idx world =
        some (List.foldl (fun w c => k c w) world
          ((qualifying s.triangleCounts start).map
            (binCallFor taskId modelId start end_ buffers idx))) ∧
      BinTransformedTrianglesMT k s taskId modelId start end_ buffers idx world =
        some (List.foldl (fun w c => k c w) world
          ((qualifying s.triangleCounts start).map
            (binCallFor taskId modelId start end_ buffers idx)))) := by
  refine ⟨?_, ?_, ?_, ?_, ?_⟩
  · rw [transformMeshes_eq_foldl recordCall s start end_ idx [] hwf hin hts, foldl_recordCall]
    rfl
  · rw [binST_eq_foldl recordCall s taskId modelId start end_ buffers idx [] hwf hin hts,
      foldl_recordCall]
    rfl
  · rw [binMT_eq_foldl recordCall s taskId modelId start end_ buffers idx [] hwf hin hts,
      foldl_recordCall]
    rfl
  · intro σ k world
    exact transformMeshes_eq_foldl k s start end_ idx world hwf hin hts
  · intro σ k world
    exact ⟨binST_eq_foldl k s taskId modelId start end_ buffers idx world hwf hin hts,
      binMT_eq_foldl k s taskId modelId start end_ buffers idx world hwf hin hts⟩

/-- Witness for C9: meshes of 100 and 50 triangles (200 and 100 vertices), slot 0
visible and not too small, `start = 120`: the first mesh (running total 100) is
skipped by the binning walk and the second (running total 150) is called. -/
theorem dispatch_trace_witness :
    qualifying (Sample.record true false [⟨200, 100⟩, ⟨100, 50⟩]).triangleCounts 120 = [1] ∧
    BinTransformedTrianglesST recordCall (Sample.record true false [⟨200, 100⟩, ⟨100, 50⟩])
      7 3 120 140 ⟨10, 20, 30, 40⟩ 0 [] =
      some ((qualifying (Sample.record true false [⟨200, 100⟩, ⟨100, 50⟩]).triangleCounts
        120).map (binCallFor 7 3 120 140 ⟨10, 20, 30, 40⟩ 0)) :=
  ⟨by decide,
    (dispatch_trace (Sample.record true false [⟨200, 100⟩, ⟨100, 50⟩]) 0 rfl rfl rfl
      7 3 120 140 ⟨10, 20, 30, 40⟩).2.1⟩

/-- C10: for every record state and every argument tuple, and whatever per-mesh
primitive `k` both dispatchers are given, `BinTransformedTrianglesST` and
`BinTransformedTrianglesMT` return the same result; with the recording primitive,
they make the same calls in the same order with the same arguments. -/
theorem st_mt_equivalence (s : TransformedModelScalar F)
    (taskId modelId start end_ : Nat) (buffers : BinBuffers) (idx : Fin 2) :
    (∀ (σ : Type) (k : BinCall → σ → σ) (world : σ),
      BinTransformedTrianglesST k s taskId modelId start end_ buffers idx world =
        BinTransformedTrianglesMT k s taskId modelId start end_ buffers idx world) ∧
    (∀ trace : List BinCall,
      BinTransformedTrianglesST recordCall s taskId modelId start end_ buffers idx trace =
        BinTransformedTrianglesMT recordCall s taskId modelId start end_ buffers idx trace) :=
  ⟨fun _ k world => (binDispatchers_agree k s taskId modelId start end_ buffers idx world).symm,
    fun trace =>
      (binDispatchers_agree recordCall s taskId modelId start end_ buffers idx trace).symm⟩

/-- C8, as stated, fails at the boundary: with meshes of 200 and 100 vertices and
`start = 200`, every vertex of mesh 0 has global index below `start` (its inclusive
prefix sum is `200 ≤ start`), yet `TransformMeshes` calls the kernel of mesh 0; the
binning dispatcher does the same with 100 and 50 triangles and `start = 100`. -/
theorem skip_ahead_counterexample :
    ((Sample.record true false [⟨200, 100⟩, ⟨100, 50⟩]).vertexCounts.take 1).sum ≤ 200 ∧
    (TransformMeshes recordCall (Sample.record true false [⟨200, 100⟩, ⟨100, 50⟩])
      200 250 0 []).map (List.map TransformCall.mesh) = some [0, 1] ∧
    ((Sample.record true false [⟨200, 100⟩, ⟨100, 50⟩]).triangleCounts.take 1).sum ≤ 100 ∧
    (BinTransformedTrianglesST recordCall (Sample.record true false [⟨200, 100⟩, ⟨100, 50⟩])
      0 0 100 120 ⟨0, 0, 0, 0⟩ 0 []).map (List.map BinCall.mesh) = some [0, 1] := by
  decide

/-- C8, amended: on a slot classified visible and not too small, of a record whose
mesh array has `mNumMeshes` elements, `TransformMeshes` returns and makes no kernel
call for any mesh `i` whose inclusive prefix sum of vertex counts through mesh `i`
is strictly below `start`, while a mesh whose inclusive prefix sum equals `start`
is still called; likewise `BinTransformedTrianglesST` / `MT` with triangle counts. -/
theorem skip_ahead_strict (s : TransformedModelScalar F) (idx : Fin 2)
    (hwf : s.mpMeshes.length = s.mNumMeshes)
    (hin : s.mInsideViewFrustum idx = true) (hts : s.mTooSmall idx = false)
    (taskId modelId start end_ : Nat) (hstart : start < UINT_MOD) (buffers : BinBuffers)
    (i : Nat) :
    (∃ trace, TransformMeshes recordCall s start end_ idx [] = some trace ∧
      ((s.vertexCounts.take (i + 1)).sum < start → ∀ c ∈ trace, c.mesh ≠ i) ∧
      (i < s.vertexCounts.length → (s.vertexCounts.take (i + 1)).sum = start →
        ∃ c ∈ trace, c.mesh = i)) ∧
    (∃ trace,
      BinTransformedTrianglesST recordCall s taskId modelId start end_ buffers idx [] =
        some trace ∧
      BinTransformedTrianglesMT recordCall s taskId modelId start end_ buffers idx [] =
        some trace ∧
      ((s.triangleCounts.take (i + 1)).sum < start → ∀ c ∈ trace, c.mesh ≠ i) ∧
      (i < s.triangleCounts.length → (s.triangleCounts.take (i + 1)).sum = start →
        ∃ c ∈ trace, c.mesh = i)) := by
  refine ⟨⟨(qualifying s.vertexCounts start).map (transformCallFor s start end_ idx),
      ?_, ?_, ?_⟩,
    ⟨(qualifying s.triangleCounts start).map
      (binCallFor taskId modelId start end_ buffers idx), ?_, ?_, ?_, ?_⟩⟩
  · rw [transformMeshes_eq_foldl recordCall s start end_ idx [] hwf hin hts,
      foldl_recordCall, List.nil_append]
  · intro hlt c hc hci
    apply not_qualifying_of_sum_lt s.vertexCounts start i hlt
    obtain ⟨j, hj, rfl⟩ := List.mem_map.1 hc
    simpa [transformCallFor] using hci ▸ hj
  · intro hlen heq
    refine ⟨transformCallFor s start end_ idx i, List.mem_map_of_mem _ ?_, rfl⟩
    rw [mem_qualifying]
    exact ⟨hlen, by rw [inclusiveTotal, heq, Nat.mod_eq_of_lt hstart]⟩
  · rw [binST_eq_foldl recordCall s taskId modelId start end_ buffers idx [] hwf hin hts,
      foldl_recordCall, List.nil_append]
  · rw [binMT_eq_foldl recordCall s taskId modelId start end_ buffers idx [] hwf hin hts,
      foldl_recordCall, List.nil_append]
  · intro hlt c hc hci
    apply not_qualifying_of_sum_lt s.triangleCounts start i hlt
    obtain ⟨j, hj, rfl⟩ := List.mem_map.1 hc
    simpa [binCallFor] using hci ▸ hj
  · intro hlen heq
    refine ⟨binCallFor taskId modelId start end_ buffers idx i, List.mem_map_of_mem _ ?_, rfl⟩
    rw [mem_qualifying]
    exact ⟨hlen, by rw [inclusiveTotal, heq, Nat.mod_eq_of_lt hstart]⟩

/-- Witness for C8: meshes of 100 and 50 triangles, `start = 101`: mesh 0, whose
inclusive prefix sum 100 is strictly below `start`, receives no call. -/
theorem skip_ahead_strict_witness :
    ((Sample.record true false [⟨200, 100⟩, ⟨100, 50⟩]).triangleCounts.take (0 + 1)).sum <
      101 ∧
    ∃ trace,
      BinTransformedTrianglesST recordCall (Sample.record true false [⟨200, 100⟩, ⟨100, 50⟩])
        0 0 101 120 ⟨0, 0, 0, 0⟩ 0 [] = some trace ∧
      BinTransformedTrianglesMT recordCall (Sample.record true false [⟨200, 100⟩, ⟨100, 50⟩])
        0 0 101 120 ⟨0, 0, 0, 0⟩ 0 [] = some trace ∧
      (((Sample.record true false [⟨200, 100⟩, ⟨100, 50⟩]).triangleCounts.take (0 + 1)).sum <
        101 → ∀ c ∈ trace, c.mesh ≠ 0) ∧
      (0 < (Sample.record true false [⟨200, 100⟩, ⟨100, 50⟩]).triangleCounts.length →
        ((Sample.record true false [⟨200, 100⟩, ⟨100, 50⟩]).triangleCounts.take (0 + 1)).sum =
          101 → ∃ c ∈ trace, c.mesh = 0) :=
  ⟨by decide,
    (skip_ahead_strict (Sample.record true false [⟨200, 100⟩, ⟨100, 50⟩]) 0 rfl rfl rfl
      0 0 101 120 (by decide) ⟨0, 0, 0, 0⟩ 0).2⟩

/-- C7, as stated, fails in two ways.  With meshes of 100 and 50 triangles and the
range `[0, 10)`, mesh 1 (interval `[100, 150)`) does not intersect the range, yet
its kernel is called.  With meshes of 2, 4294967295 and 5 triangles and the range
`[3, 5)`, the 32-bit running total wraps to 1 at mesh 1, which owns triangles 3 and
4, and its kernel is not called. -/
theorem dispatch_intersecting_counterexample :
    (¬ intersects [100, 50] 0 10 1 ∧
      (BinTransformedTrianglesST recordCall (Sample.record true false [⟨200, 100⟩, ⟨100, 50⟩])
        0 0 0 10 ⟨0, 0, 0, 0⟩ 0 []).map (List.map BinCall.mesh) = some [0, 1]) ∧
    (intersects [2, 4294967295, 5] 3 5 1 ∧
      (BinTransformedTrianglesST recordCall
        (Sample.record true false [⟨0, 2⟩, ⟨0, 4294967295⟩, ⟨0, 5⟩])
        0 0 3 5 ⟨0, 0, 0, 0⟩ 0 []).map (List.map BinCall.mesh) = some [2]) := by
  refine ⟨⟨?_, by decide⟩, ⟨⟨3, ?_⟩, by decide⟩⟩
  · rintro ⟨g, h1, h2, h3, h4⟩
    simp [meshBase] at h3
    omega
  · simp [meshBase]

/-- C7, amended: on a slot classified visible and not too small, of a record whose
mesh array has `mNumMeshes` elements and whose total triangle count is below
`2 ^ 32`, both binning dispatchers return with the same calls; no mesh is called
more than once; every mesh whose global triangle interval
`[prefix(i), prefix(i) + count(i))` intersects `[start, end)` is called exactly
once; and the meshes called are exactly those with `prefix(i) + count(i) ≥ start`,
which includes meshes that do not intersect the range. -/
theorem dispatch_intersecting (s : TransformedModelScalar F) (idx : Fin 2)
    (hwf : s.mpMeshes.length = s.mNumMeshes)
    (hin : s.mInsideViewFrustum idx = true) (hts : s.mTooSmall idx = false)
    (hsum : s.triangleCounts.sum < UINT_MOD)
    (taskId modelId start end_ : Nat) (buffers : BinBuffers) :
    ∃ trace,
      BinTransformedTrianglesST recordCall s taskId modelId start end_ buffers idx [] =
        some trace ∧
      BinTransformedTrianglesMT recordCall s taskId modelId start end_ buffers idx [] =
        some trace ∧
      (∀ i, (trace.map BinCall.mesh).count i ≤ 1) ∧
      (∀ i, intersects s.triangleCounts start end_ i → (trace.map BinCall.mesh).count i = 1) ∧
      (∀ i, i ∈ trace.map BinCall.mesh ↔
        i < s.triangleCounts.length ∧
          start ≤ meshBase s.triangleCounts i + s.triangleCounts.getD i 0) := by
  have hmem : ∀ i, i ∈ qualifying s.triangleCounts start ↔
      i < s.triangleCounts.length ∧
        start ≤ meshBase s.triangleCounts i + s.triangleCounts.getD i 0 := by
    intro i
    rw [mem_qualifying]
    constructor
    · rintro ⟨h1, h2⟩
      rw [inclusiveTotal_exact _ _ h1 hsum] at h2
      exact ⟨h1, h2⟩
    · rintro ⟨h1, h2⟩
      rw [inclusiveTotal_exact _ _ h1 hsum]
      exact ⟨h1, h2⟩
  refine ⟨(qualifying s.triangleCounts start).map
    (binCallFor taskId modelId start end_ buffers idx), ?_, ?_, ?_, ?_, ?_⟩
  · rw [binST_eq_foldl recordCall s taskId modelId start end_ buffers idx [] hwf hin hts,
      foldl_recordCall, List.nil_append]
  · rw [binMT_eq_foldl recordCall s taskId modelId start end_ buffers idx [] hwf hin hts,
      foldl_recordCall, List.nil_append]
  · intro i
    rw [map_mesh_binCallFor]
    exact List.nodup_iff_count_le_one.1 (qualifying_nodup _ _) i
  · intro i hi
    rw [map_mesh_binCallFor]
    apply List.count_eq_one_of_mem (qualifying_nodup _ _)
    rw [hmem]
    refine ⟨intersects_lt_length _ _ _ _ hi, ?_⟩
    obtain ⟨g, h1, _, _, h4⟩ := hi
    omega
  · intro i
    rw [map_mesh_binCallFor]
    exact hmem i

/-- Witness for C7: meshes of 100 and 50 triangles and the range `[80, 120)`; both
meshes intersect the range and each is called once. -/
theorem dispatch_intersecting_witness :
    (Sample.record true false [⟨200, 100⟩, ⟨100, 50⟩]).triangleCounts.sum < UINT_MOD ∧
    ∃ trace,
      BinTransformedTrianglesST recordCall (Sample.record true false [⟨200, 100⟩, ⟨100, 50⟩])
        0 0 80 120 ⟨0, 0, 0, 0⟩ 0 [] = some trace ∧
      BinTransformedTrianglesMT recordCall (Sample.record true false [⟨200, 100⟩, ⟨100, 50⟩])
        0 0 80 120 ⟨0, 0, 0, 0⟩ 0 [] = some trace ∧
      (∀ i, (trace.map BinCall.mesh).count i ≤ 1) ∧
      (∀ i, intersects (Sample.record true false [⟨200, 100⟩, ⟨100, 50⟩]).triangleCounts
        80 120 i → (trace.map BinCall.mesh).count i = 1) ∧
      (∀ i, i ∈ trace.map BinCall.mesh ↔
        i < (Sample.record true false [⟨200, 100⟩, ⟨100, 50⟩]).triangleCounts.length ∧
          80 ≤ meshBase (Sample.record true false [⟨200, 100⟩, ⟨100, 50⟩]).triangleCounts i +
            (Sample.record true false [⟨200, 100⟩, ⟨100, 50⟩]).triangleCounts.getD i 0) :=
  ⟨by decide,
    dispatch_intersecting (Sample.record true false [⟨200, 100⟩, ⟨100, 50⟩]) 0 rfl rfl rfl
      (by decide) 0 0 80 120 ⟨0, 0, 0, 0⟩⟩

end DispatchClaims

/-! ## Setup: lemmas -/

section SetupLemmas

variable {F : Type}

theorem createLoop_zero (pModel : CPUTModelDX11 F) (i : Nat) (s : TransformedModelScalar F) :
    CreateTransformedMeshes.loop pModel 0 i s = .done s := rfl

theorem createLoop_null (pModel : CPUTModelDX11 F) (n i : Nat) (s : TransformedModelScalar F)
    (h : pModel.GetMesh i = none) :
    CreateTransformedMeshes.loop pModel (n + 1) i s = .assertFailed i s := by
  simp [CreateTransformedMeshes.loop, h]

theorem createLoop_some (pModel : CPUTModelDX11 F) (n i : Nat) (s : TransformedModelScalar F)
    (pMesh : CPUTMeshDX11) (h : pModel.GetMesh i = some pMesh) :
    CreateTransformedMeshes.loop pModel (n + 1) i s =
      CreateTransformedMeshes.loop pModel n (i + 1) (setupStep s i pMesh) := by
  simp [CreateTransformedMeshes.loop, h, setupStep]

/-- The loop ends in `done` exactly when every handle in its range is present; an
assertion fires at the first `NULL` handle. -/
theorem createLoop_outcome (pModel : CPUTModelDX11 F) :
    ∀ (n i : Nat) (s : TransformedModelScalar F),
      ((∀ j, i ≤ j → j < i + n → pModel.GetMesh j ≠ none) →
        ∃ s1, CreateTransformedMeshes.loop pModel n i s = .done s1) ∧
      (∀ k, i ≤ k → k < i + n → pModel.GetMesh k = none →
        (∀ j, i ≤ j → j < k → pModel.GetMesh j ≠ none) →
        ∃ s1, CreateTransformedMeshes.loop pModel n i s = .assertFailed k s1) ∧
      (∀ k s1, CreateTransformedMeshes.loop pModel n i s = .assertFailed k s1 →
        i ≤ k ∧ k < i + n ∧ pModel.GetMesh k = none ∧
          ∀ j, i ≤ j → j < k → pModel.GetMesh j ≠ none) := by
  intro n
  induction n with
  | zero =>
    intro i s
    refine ⟨fun _ => ⟨s, rfl⟩, ?_, ?_⟩
    · intro k h1 h2
      omega
    · intro k s1 h
      simp [createLoop_zero] at h
  | succ n ih =>
    intro i s
    cases hm : pModel.GetMesh i with
    | none =>
      rw [createLoop_null pModel n i s hm]
      refine ⟨?_, ?_, ?_⟩
      · intro h
        exact absurd hm (h i (Nat.le_refl _) (by omega))
      · intro k h1 h2 hk hj
        have hki : k = i := by
          by_contra hne
          exact hj i (Nat.le_refl _) (by omega) hm
        subst hki
        exact ⟨s, rfl⟩
      · intro k s1 h
        simp only [SetupOutcome.assertFailed.injEq] at h
        obtain ⟨rfl, rfl⟩ := h
        exact ⟨Nat.le_refl _, by omega, hm, fun j h1 h2 => by omega⟩
    | some pMesh =>
      rw [createLoop_some pModel n i s pMesh hm]
      obtain ⟨ih1, ih2, ih3⟩ := ih (i + 1) (setupStep s i pMesh)
      refine ⟨?_, ?_, ?_⟩
      · intro h
        exact ih1 (fun j h1 h2 => h j (by omega) (by omega))
      · intro k h1 h2 hk hj
        have hki : i ≠ k := by
          intro heq
          rw [← heq, hm] at hk
          exact absurd hk (by simp)
        exact ih2 k (by omega) (by omega) hk (fun j h3 h4 => hj j (by omega) h4)
      · intro k s1 h
        obtain ⟨h1, h2, h3, h4⟩ := ih3 k s1 h
        refine ⟨by omega, by omega, h3, ?_⟩
        intro j hj1 hj2
        by_cases hji : j = i
        · rw [hji, hm]
          simp
        · exact h4 j (by omega) hj2

/-- What the loop leaves untouched, whatever its outcome. -/
theorem createLoop_record_frame (pModel : CPUTModelDX11 F) :
    ∀ (n i : Nat) (s : TransformedModelScalar F),
      (CreateTransformedMeshes.loop pModel n i s).record.mpCPUTModel = s.mpCPUTModel ∧
      (CreateTransformedMeshes.loop pModel n i s).record.mNumMeshes = s.mNumMeshes ∧
      (CreateTransformedMeshes.loop pModel n i s).record.mWorldMatrix = s.mWorldMatrix ∧
      (CreateTransformedMeshes.loop pModel n i s).record.mBBCenterOS = s.mBBCenterOS ∧
      (CreateTransformedMeshes.loop pModel n i s).record.mRadiusSq = s.mRadiusSq ∧
      (CreateTransformedMeshes.loop pModel n i s).record.mInsideViewFrustum =
        s.mInsideViewFrustum ∧
      (CreateTransformedMeshes.loop pModel n i s).record.mTooSmall = s.mTooSmall ∧
      (CreateTransformedMeshes.loop pModel n i s).record.mpMeshes.length =
        s.mpMeshes.length := by
  intro n
  induction n with
  | zero => intro i s; simp [createLoop_zero, SetupOutcome.record]
  | succ n ih =>
    intro i s
    cases hm : pModel.GetMesh i with
    | none => simp [createLoop_null pModel n i s hm, SetupOutcome.record]
    | some pMesh =>
      rw [createLoop_some pModel n i s pMesh hm]
      have := ih (i + 1) (setupStep s i pMesh)
      simpa [setupStep] using this

end SetupLemmas

section SetupLemmas2

variable {F : Type}

theorem take_succ_set {α : Type} (a : α) :
    ∀ (l : List α) (i : Nat), i < l.length → (l.set i a).take (i + 1) = l.take i ++ [a] := by
  intro l
  induction l with
  | nil => intro i h; simp at h
  | cons x xs ih =>
    intro i h
    cases i with
    | zero => simp
    | succ i =>
      simp only [List.length_cons, Nat.add_lt_add_iff_right] at h
      simp [ih i h]

/-- The totals after the loop are congruent, modulo `2 ^ 32`, to the initial totals
plus the counts of the meshes initialised so far. -/
theorem createLoop_totals (pModel : CPUTModelDX11 F) (v0 t0 : Nat) :
    ∀ (n i : Nat) (s : TransformedModelScalar F), i + n ≤ s.mpMeshes.length →
      s.mNumVertices % UINT_MOD =
        (v0 + ((s.mpMeshes.take i).map TransformedMeshScalar.GetNumVertices).sum) % UINT_MOD →
      s.mNumTriangles % UINT_MOD =
        (t0 + ((s.mpMeshes.take i).map TransformedMeshScalar.GetNumTriangles).sum) % UINT_MOD →
      (CreateTransformedMeshes.loop pModel n i s).record.mNumVertices % UINT_MOD =
        (v0 + (((CreateTransformedMeshes.loop pModel n i s).record.mpMeshes.take
          ((CreateTransformedMeshes.loop pModel n i s).stoppedAt (i + n))).map
            TransformedMeshScalar.GetNumVertices).sum) % UINT_MOD ∧
      (CreateTransformedMeshes.loop pModel n i s).record.mNumTriangles % UINT_MOD =
        (t0 + (((CreateTransformedMeshes.loop pModel n i s).record.mpMeshes.take
          ((CreateTransformedMeshes.loop pModel n i s).stoppedAt (i + n))).map
            TransformedMeshScalar.GetNumTriangles).sum) % UINT_MOD := by
  intro n
  induction n with
  | zero =>
    intro i s _ hv ht
    simp only [createLoop_zero, SetupOutcome.record, SetupOutcome.stoppedAt, Nat.add_zero]
    exact ⟨hv, ht⟩
  | succ n ih =>
    intro i s hlen hv ht
    cases hm : pModel.GetMesh i with
    | none =>
      simp only [createLoop_null pModel n i s hm, SetupOutcome.record, SetupOutcome.stoppedAt]
      exact ⟨hv, ht⟩
    | some pMesh =>
      rw [createLoop_some pModel n i s pMesh hm]
      have hi : i < s.mpMeshes.length := by omega
      have hadd : i + (n + 1) = i + 1 + n := by omega
      rw [hadd]
      apply ih (i + 1) (setupStep s i pMesh)
      · simp only [setupStep, List.length_set]
        omega
      · simp only [setupStep, take_succ_set _ _ _ hi, List.map_append, List.sum_append,
          List.map_cons, List.map_nil, List.sum_cons, List.sum_nil, Nat.add_zero, Nat.mod_mod]
        rw [Nat.add_mod, hv, ← Nat.add_mod, Nat.add_assoc]
      · simp only [setupStep, take_succ_set _ _ _ hi, List.map_append, List.sum_append,
          List.map_cons, List.map_nil, List.sum_cons, List.sum_nil, Nat.add_zero, Nat.mod_mod]
        rw [Nat.add_mod, ht, ← Nat.add_mod, Nat.add_assoc]

/-- The meshes below the stopping index are initialised from their source meshes;
the other array elements are untouched. -/
theorem createLoop_meshes (pModel : CPUTModelDX11 F) :
    ∀ (n i : Nat) (s : TransformedModelScalar F), i + n ≤ s.mpMeshes.length →
      (∀ j, i ≤ j → j < (CreateTransformedMeshes.loop pModel n i s).stoppedAt (i + n) →
        ∃ m, pModel.GetMesh j = some m ∧
          (CreateTransformedMeshes.loop pModel n i s).record.mpMeshes[j]? =
            some (TransformedMeshScalar.Initialize m)) ∧
      (∀ j, (j < i ∨ (CreateTransformedMeshes.loop pModel n i s).stoppedAt (i + n) ≤ j) →
        (CreateTransformedMeshes.loop pModel n i s).record.mpMeshes[j]? = s.mpMeshes[j]?) := by
  intro n
  induction n with
  | zero =>
    intro i s _
    simp only [createLoop_zero, SetupOutcome.record, SetupOutcome.stoppedAt]
    exact ⟨fun j h1 h2 => by omega, fun _ _ => trivial⟩
  | succ n ih =>
    intro i s hlen
    cases hm : pModel.GetMesh i with
    | none =>
      simp only [createLoop_null pModel n i s hm, SetupOutcome.record, SetupOutcome.stoppedAt]
      exact ⟨fun j h1 h2 => by omega, fun _ _ => trivial⟩
    | some pMesh =>
      rw [createLoop_some pModel n i s pMesh hm]
      have hi : i < s.mpMeshes.length := by omega
      have hadd : i + (n + 1) = i + 1 + n := by omega
      rw [hadd]
      obtain ⟨ih1, ih2⟩ := ih (i + 1) (setupStep s i pMesh)
        (by simp only [setupStep, List.length_set]; omega)
      refine ⟨?_, ?_⟩
      · intro j h1 h2
        by_cases hji : j = i
        · subst hji
          refine ⟨pMesh, hm, ?_⟩
          rw [ih2 j (Or.inl (by omega))]
          simp [setupStep, hi]
        · exact ih1 j (by omega) h2
      · intro j hj
        have hne : i ≠ j := by
          rcases hj with h | h
          · omega
          · have := (createLoop_outcome pModel n (i + 1) (setupStep s i pMesh)).2.2
            cases hr : CreateTransformedMeshes.loop pModel n (i + 1) (setupStep s i pMesh) with
            | done s1 =>
              rw [hr] at h
              simp only [SetupOutcome.stoppedAt] at h
              omega
            | assertFailed k s1 =>
              rw [hr] at h
              simp only [SetupOutcome.stoppedAt] at h
              have := (this k s1 hr).1
              omega
        rw [ih2 j (by
          rcases hj with h | h
          · exact Or.inl (by omega)
          · exact Or.inr h)]
        simp [setupStep, List.getElem?_set_ne hne]

end SetupLemmas2

/-! ## Classification: frame lemmas -/

section ClassificationFrame

variable {F : Type} [Add F] [Mul F] [One F] [LT F] [DecidableRel (fun a b : F => a < b)]

/-- What `TooSmall` never writes. -/
theorem tooSmall_frame (setup : BoxTestSetupScalar F) (idx : Fin 2)
    (s : TransformedModelScalar F) :
    (TooSmall setup idx s).mpCPUTModel = s.mpCPUTModel ∧
    (TooSmall setup idx s).mNumMeshes = s.mNumMeshes ∧
    (TooSmall setup idx s).mNumVertices = s.mNumVertices ∧
    (TooSmall setup idx s).mNumTriangles = s.mNumTriangles ∧
    (TooSmall setup idx s).mpMeshes = s.mpMeshes ∧
    (TooSmall setup idx s).mWorldMatrix = s.mWorldMatrix ∧
    (TooSmall setup idx s).mBBCenterOS = s.mBBCenterOS ∧
    (TooSmall setup idx s).mRadiusSq = s.mRadiusSq ∧
    (TooSmall setup idx s).mInsideViewFrustum = s.mInsideViewFrustum := by
  unfold TooSmall
  by_cases hv : s.mInsideViewFrustum idx = true
  · simp only [hv, if_true]
    split <;> exact ⟨rfl, rfl, rfl, rfl, rfl, rfl, rfl, rfl, rfl⟩
  · rw [if_neg hv]
    exact ⟨rfl, rfl, rfl, rfl, rfl, rfl, rfl, rfl, rfl⟩

/-- What `InsideViewFrustum` never writes. -/
theorem insideViewFrustum_frame (mem : Nat → CPUTModelDX11 F) (setup : BoxTestSetupScalar F)
    (idx : Fin 2) (s s1 : TransformedModelScalar F)
    (h : InsideViewFrustum mem setup idx s = some s1) :
    s1.mpCPUTModel = s.mpCPUTModel ∧
    s1.mNumMeshes = s.mNumMeshes ∧
    s1.mNumVertices = s.mNumVertices ∧
    s1.mNumTriangles = s.mNumTriangles ∧
    s1.mpMeshes = s.mpMeshes ∧
    s1.mWorldMatrix = s.mWorldMatrix ∧
    s1.mBBCenterOS = s.mBBCenterOS ∧
    s1.mRadiusSq = s.mRadiusSq := by
  unfold InsideViewFrustum at h
  cases hp : s.mpCPUTModel with
  | none => simp [hp] at h
  | some p =>
    simp only [hp] at h
    split at h
    · split at h <;> simp only [Option.some.injEq] at h <;> subst h <;>
        exact ⟨rfl, rfl, rfl, rfl, rfl, rfl, rfl, rfl⟩
    · simp only [Option.some.injEq] at h
      subst h
      exact ⟨rfl, rfl, rfl, rfl, rfl, rfl, rfl, rfl⟩

/-- What no classification call writes. -/
theorem classifyOp_frame (op : ClassifyOp F) (s s1 : TransformedModelScalar F)
    (h : op.run s = some s1) :
    s1.mpCPUTModel = s.mpCPUTModel ∧
    s1.mNumMeshes = s.mNumMeshes ∧
    s1.mNumVertices = s.mNumVertices ∧
    s1.mNumTriangles = s.mNumTriangles ∧
    s1.mpMeshes = s.mpMeshes ∧
    s1.mWorldMatrix = s.mWorldMatrix ∧
    s1.mBBCenterOS = s.mBBCenterOS ∧
    s1.mRadiusSq = s.mRadiusSq := by
  cases op with
  | insideViewFrustum mem setup idx => exact insideViewFrustum_frame mem setup idx s s1 h
  | tooSmall setup idx =>
    simp only [ClassifyOp.run, Option.some.injEq] at h
    subst h
    obtain ⟨h1, h2, h3, h4, h5, h6, h7, h8, _⟩ := tooSmall_frame setup idx s
    exact ⟨h1, h2, h3, h4, h5, h6, h7, h8⟩

/-- What no sequence of classification calls writes. -/
theorem runOps_frame :
    ∀ (ops : List (ClassifyOp F)) (s s1 : TransformedModelScalar F), runOps ops s = some s1 →
      s1.mpCPUTModel = s.mpCPUTModel ∧
      s1.mNumMeshes = s.mNumMeshes ∧
      s1.mNumVertices = s.mNumVertices ∧
      s1.mNumTriangles = s.mNumTriangles ∧
      s1.mpMeshes = s.mpMeshes ∧
      s1.mWorldMatrix = s.mWorldMatrix ∧
      s1.mBBCenterOS = s.mBBCenterOS ∧
      s1.mRadiusSq = s.mRadiusSq := by
  intro ops
  induction ops with
  | nil =>
    intro s s1 h
    simp only [runOps, Option.some.injEq] at h
    subst h
    exact ⟨rfl, rfl, rfl, rfl, rfl, rfl, rfl, rfl⟩
  | cons op ops ih =>
    intro s s1 h
    simp only [runOps] at h
    cases hr : op.run s with
    | none => simp [hr] at h
    | some s2 =>
      simp only [hr, Option.some_bind] at h
      obtain ⟨a1, a2, a3, a4, a5, a6, a7, a8⟩ := classifyOp_frame op s s2 hr
      obtain ⟨b1, b2, b3, b4, b5, b6, b7, b8⟩ := ih s2 s1 h
      exact ⟨b1.trans a1, b2.trans a2, b3.trans a3, b4.trans a4, b5.trans a5, b6.trans a6,
        b7.trans a7, b8.trans a8⟩

/-- The stored verdict followed by the standalone size test is what
`InsideViewFrustum` computes. -/
theorem insideViewFrustum_eq_classifyThenTooSmall (mem : Nat → CPUTModelDX11 F)
    (setup : BoxTestSetupScalar F) (idx : Fin 2) (s : TransformedModelScalar F) :
    InsideViewFrustum mem setup idx s = classifyThenTooSmall mem setup idx s := by
  unfold InsideViewFrustum classifyThenTooSmall storeFrustumVerdict
  cases hp : s.mpCPUTModel with
  | none => rfl
  | some p =>
    simp only [Option.map_some', setSlot_same]
    unfold TooSmall
    simp only [setSlot_same]
    split
    · split <;> rfl
    · rfl

end ClassificationFrame

/-! ## Claims on classification, continued -/

section ClassificationClaims2

variable {F : Type} [Add F] [Mul F] [One F] [LT F] [DecidableRel (fun a b : F => a < b)]

/-- C11: for every record state, view setup and slot, `InsideViewFrustum(setup, idx)`
produces the same final state as first refreshing the world-space bounds and
storing the frustum verdict into `mInsideViewFrustum[idx]` and then calling
`TooSmall(setup, idx)` (and fails to return in the same case, an unbound record). -/
theorem inline_size_test_eq_standalone (mem : Nat → CPUTModelDX11 F)
    (setup : BoxTestSetupScalar F) (idx : Fin 2) (s : TransformedModelScalar F) :
    InsideViewFrustum mem setup idx s =
      (storeFrustumVerdict mem setup idx s).map (TooSmall setup idx) :=
  insideViewFrustum_eq_classifyThenTooSmall mem setup idx s

/-- C12: `TooSmall(setup, idx)` never changes `mInsideViewFrustum` for either slot,
and when `mInsideViewFrustum[idx]` is false it leaves the whole record unchanged. -/
theorem tooSmall_standalone_frame (setup : BoxTestSetupScalar F) (idx : Fin 2)
    (s : TransformedModelScalar F) :
    (∀ j, (TooSmall setup idx s).mInsideViewFrustum j = s.mInsideViewFrustum j) ∧
    (s.mInsideViewFrustum idx = false → TooSmall setup idx s = s) := by
  refine ⟨?_, ?_⟩
  · intro j
    rw [(tooSmall_frame setup idx s).2.2.2.2.2.2.2.2]
  · intro h
    simp [TooSmall, h]

/-- Witness for C12: the size test on a slot outside the frustum of a sample record
with stale `mTooSmall` flags. -/
theorem tooSmall_standalone_frame_witness :
    (Sample.record false true []).mInsideViewFrustum 0 = false ∧
    TooSmall (Sample.view true 2 3) 0 (Sample.record false true []) =
      Sample.record false true [] :=
  ⟨rfl,
    (tooSmall_standalone_frame (Sample.view true 2 3) 0 (Sample.record false true [])).2 rfl⟩

/-- C13: `InsideViewFrustum(setup, idx)` and `TooSmall(setup, idx)` leave
`mInsideViewFrustum`, `mTooSmall` and `mCumulativeMatrix` of the other slot
unchanged, and the values they write for slot `idx` do not depend on the state of
the other slot: two runs from records that differ only in the other slot's
`mInsideViewFrustum`, `mTooSmall`, `mCumulativeMatrix` and `mpXformedPos` give the
same slot-`idx` result. -/
theorem slot_independence (mem : Nat → CPUTModelDX11 F) (setup : BoxTestSetupScalar F)
    (idx other : Fin 2) (hne : other ≠ idx) (s : TransformedModelScalar F) :
    (∀ s1, InsideViewFrustum mem setup idx s = some s1 →
      slotState other s1 = slotState other s) ∧
    slotState other (TooSmall setup idx s) = slotState other s ∧
    (∀ (a b : Bool) (c : float4x4 F) (d : Option Nat),
      (InsideViewFrustum mem setup idx
          { s with
            mInsideViewFrustum := setSlot s.mInsideViewFrustum other a
            mTooSmall := setSlot s.mTooSmall other b
            mCumulativeMatrix := setSlot s.mCumulativeMatrix other c
            mpXformedPos := setSlot s.mpXformedPos other d }).map (slotState idx) =
        (InsideViewFrustum mem setup idx s).map (slotState idx) ∧
      slotState idx (TooSmall setup idx
          { s with
            mInsideViewFrustum := setSlot s.mInsideViewFrustum other a
            mTooSmall := setSlot s.mTooSmall other b
            mCumulativeMatrix := setSlot s.mCumulativeMatrix other c
            mpXformedPos := setSlot s.mpXformedPos other d }) =
        slotState idx (TooSmall setup idx s)) := by
  have hne2 : idx ≠ other := fun h => hne h.symm
  refine ⟨?_, ?_, ?_⟩
  · intro s1 h
    unfold InsideViewFrustum at h
    cases hp : s.mpCPUTModel with
    | none => simp [hp] at h
    | some p =>
      simp only [hp] at h
      split at h
      · split at h <;> simp only [Option.some.injEq] at h <;> subst h <;>
          simp [slotState, setSlot_other _ _ _ _ hne]
      · simp only [Option.some.injEq] at h
        subst h
        simp [slotState, setSlot_other _ _ _ _ hne]
  · unfold TooSmall
    by_cases hv : s.mInsideViewFrustum idx = true
    · simp only [hv, if_true]
      split <;> simp [slotState, setSlot_other _ _ _ _ hne]
    · rw [if_neg hv]
  · intro a b c d
    refine ⟨?_, ?_⟩
    · unfold InsideViewFrustum
      cases hp : s.mpCPUTModel with
      | none => rfl
      | some p =>
        simp only [setSlot_same]
        split
        · split <;> simp [slotState, setSlot_other _ _ _ _ hne2]
        · simp [slotState, setSlot_other _ _ _ _ hne2]
    · unfold TooSmall
      simp only [setSlot_other _ _ _ _ hne2, setSlot_same]
      by_cases hv : s.mInsideViewFrustum idx = true
      · simp only [hv, if_true]
        split <;> simp [slotState, setSlot_other _ _ _ _ hne2]
      · rw [if_neg hv, if_neg hv]
        simp [slotState, setSlot_other _ _ _ _ hne2]

/-- Witness for C13: slot 0 is classified while slot 1 holds arbitrary state. -/
theorem slot_independence_witness :
    (∀ s1, InsideViewFrustum (Sample.mem []) (Sample.view true 2 3) 0
        (Sample.record false true []) = some s1 →
      slotState 1 s1 = slotState 1 (Sample.record false true [])) ∧
    slotState 1 (TooSmall (Sample.view true 2 3) 0 (Sample.record false true [])) =
      slotState 1 (Sample.record false true []) :=
  ⟨(slot_independence (Sample.mem []) (Sample.view true 2 3) 0 1 (by decide)
      (Sample.record false true [])).1,
    (slot_independence (Sample.mem []) (Sample.view true 2 3) 0 1 (by decide)
      (Sample.record false true [])).2.1⟩

end ClassificationClaims2

/-! ## Setup: further lemmas -/

theorem createLoop_totals_lt {F : Type} (pModel : CPUTModelDX11 F) :
    ∀ (n i : Nat) (s : TransformedModelScalar F),
      s.mNumVertices < UINT_MOD → s.mNumTriangles < UINT_MOD →
      (CreateTransformedMeshes.loop pModel n i s).record.mNumVertices < UINT_MOD ∧
      (CreateTransformedMeshes.loop pModel n i s).record.mNumTriangles < UINT_MOD := by
  intro n
  induction n with
  | zero => intro i s hv ht; exact ⟨hv, ht⟩
  | succ n ih =>
    intro i s hv ht
    cases hm : pModel.GetMesh i with
    | none =>
      rw [createLoop_null pModel n i s hm]
      exact ⟨hv, ht⟩
    | some pMesh =>
      rw [createLoop_some pModel n i s pMesh hm]
      exact ih (i + 1) (setupStep s i pMesh)
        (Nat.mod_lt _ (by decide)) (Nat.mod_lt _ (by decide))

/-- The method `CreateTransformedMeshes` is its loop run from `setupEntry`. -/
theorem create_eq_loop {F : Type} [Add F] [Mul F] (mem : Nat → CPUTModelDX11 F) (pModel : Nat)
    (s : TransformedModelScalar F) :
    CreateTransformedMeshes mem pModel s =
      CreateTransformedMeshes.loop (mem pModel) (mem pModel).GetMeshCount 0
        (setupEntry mem pModel s) :=
  rfl

/-- What `CreateTransformedMeshes` has written when it stops, whatever the outcome. -/
theorem create_record_snapshot {F : Type} [Add F] [Mul F] (mem : Nat → CPUTModelDX11 F)
    (pModel : Nat) (s : TransformedModelScalar F) :
    (CreateTransformedMeshes mem pModel s).record.mpCPUTModel = some pModel ∧
    (CreateTransformedMeshes mem pModel s).record.mNumMeshes = (mem pModel).GetMeshCount ∧
    (CreateTransformedMeshes mem pModel s).record.mWorldMatrix = (mem pModel).GetWorldMatrix ∧
    (CreateTransformedMeshes mem pModel s).record.mBBCenterOS = (mem pModel).boundsCenterOS ∧
    (CreateTransformedMeshes mem pModel s).record.mRadiusSq =
      (mem pModel).boundsHalfOS.lengthSq ∧
    (CreateTransformedMeshes mem pModel s).record.mInsideViewFrustum = s.mInsideViewFrustum ∧
    (CreateTransformedMeshes mem pModel s).record.mTooSmall = s.mTooSmall ∧
    (CreateTransformedMeshes mem pModel s).record.mpMeshes.length =
      (mem pModel).GetMeshCount := by
  rw [create_eq_loop]
  have h := createLoop_record_frame (mem pModel) (mem pModel).GetMeshCount 0
    (setupEntry mem pModel s)
  simpa [setupEntry] using h

/-- After a successful setup of a freshly constructed record the totals are the
sums of the per-mesh counts modulo `2 ^ 32`. -/
theorem create_fresh_totals {F : Type} [Add F] [Mul F] (mem : Nat → CPUTModelDX11 F)
    (pModel : Nat) (raw s0 : TransformedModelScalar F)
    (h : CreateTransformedMeshes mem pModel raw.ctor = .done s0) :
    s0.mNumVertices = s0.vertexCounts.sum % UINT_MOD ∧
    s0.mNumTriangles = s0.triangleCounts.sum % UINT_MOD := by
  have hlen := (create_record_snapshot mem pModel raw.ctor).2.2.2.2.2.2.2
  rw [create_eq_loop] at h hlen
  have htot := createLoop_totals (mem pModel) 0 0 (mem pModel).GetMeshCount 0
    (setupEntry mem pModel raw.ctor)
    (by simp [setupEntry]) (by simp [setupEntry, TransformedModelScalar.ctor])
    (by simp [setupEntry, TransformedModelScalar.ctor])
  have hlt := createLoop_totals_lt (mem pModel) (mem pModel).GetMeshCount 0
    (setupEntry mem pModel raw.ctor)
    (by simp [setupEntry, TransformedModelScalar.ctor, UINT_MOD])
    (by simp [setupEntry, TransformedModelScalar.ctor, UINT_MOD])
  rw [h] at htot hlt hlen
  simp only [SetupOutcome.record, SetupOutcome.stoppedAt, Nat.zero_add] at htot hlt hlen
  rw [← hlen, List.take_length, Nat.mod_eq_of_lt hlt.1, Nat.mod_eq_of_lt hlt.2] at htot
  exact htot

/-! ## Claims on setup -/

section SetupClaims

variable {F : Type} [Add F] [Mul F] [One F] [LT F] [DecidableRel (fun a b : F => a < b)]

/-- C14, as stated, fails in two ways.  With meshes of 4294967295 and 2 triangles a
successful setup of a fresh record leaves `mNumTriangles = 1`, the 32-bit wrap of
the sum 4294967297.  And setup does not preserve the equality: a second
`CreateTransformedMeshes` on a record already set up from meshes of 100 and 50
triangles adds to the old totals, leaving `mNumTriangles = 300` for a sum of 150. -/
theorem totals_invariant_counterexample :
    (∃ s0, CreateTransformedMeshes (Sample.mem [4294967295, 2]) 0 Sample.raw.ctor = .done s0 ∧
      s0.mNumTriangles = 1 ∧ s0.triangleCounts.sum = 4294967297) ∧
    (∃ s0 s1, CreateTransformedMeshes (Sample.mem [100, 50]) 0 Sample.raw.ctor = .done s0 ∧
      s0.mNumTriangles = 150 ∧ s0.triangleCounts.sum = 150 ∧
      CreateTransformedMeshes (Sample.mem [100, 50]) 0 s0 = .done s1 ∧
      s1.mNumTriangles = 300 ∧ s1.triangleCounts.sum = 150) :=
  ⟨⟨_, rfl, by decide, by decide⟩, ⟨_, _, rfl, by decide, by decide, rfl, by decide, by decide⟩⟩

/-- C14, amended: after `CreateTransformedMeshes` succeeds on a freshly constructed
record, `mNumVertices` and `mNumTriangles` equal the sums of the per-mesh vertex and
triangle counts modulo `2 ^ 32` (the sums themselves when these are below
`2 ^ 32`), and the mesh array has `mNumMeshes` elements, the mesh count of the
source model; the totals, the mesh count and the meshes are the same in every state
reached afterwards by `InsideViewFrustum` and `TooSmall` calls.  A 100+50-triangle
model has total 150 after setup, classification and binning of `[80, 120)`. -/
theorem totals_invariant (raw : TransformedModelScalar F) (mem : Nat → CPUTModelDX11 F)
    (pModel : Nat) (s0 : TransformedModelScalar F)
    (hsetup : CreateTransformedMeshes mem pModel raw.ctor = .done s0) :
    s0.mNumVertices = s0.vertexCounts.sum % UINT_MOD ∧
    s0.mNumTriangles = s0.triangleCounts.sum % UINT_MOD ∧
    (s0.vertexCounts.sum < UINT_MOD → s0.mNumVertices = s0.vertexCounts.sum) ∧
    (s0.triangleCounts.sum < UINT_MOD → s0.mNumTriangles = s0.triangleCounts.sum) ∧
    s0.mpMeshes.length = s0.mNumMeshes ∧
    s0.mNumMeshes = (mem pModel).GetMeshCount ∧
    (∀ (ops : List (ClassifyOp F)) (s : TransformedModelScalar F), runOps ops s0 = some s →
      s.mNumVertices = s0.mNumVertices ∧ s.mNumTriangles = s0.mNumTriangles ∧
      s.mNumMeshes = s0.mNumMeshes ∧ s.mpMeshes = s0.mpMeshes) ∧
    ((Sample.classified [100, 50]).mNumTriangles = 150 ∧
      (Sample.classified [100, 50]).triangleCounts.sum = 150 ∧
      (BinTransformedTrianglesST (clippingKernel [100, 50]) (Sample.classified [100, 50])
        0 0 80 120 ⟨0, 0, 0, 0⟩ 0 []).map List.length = some 40) := by
  obtain ⟨hv, ht⟩ := create_fresh_totals mem pModel raw s0 hsetup
  have hsnap := create_record_snapshot mem pModel raw.ctor
  rw [hsetup] at hsnap
  simp only [SetupOutcome.record] at hsnap
  refine ⟨hv, ht, ?_, ?_, ?_, hsnap.2.1, ?_, by decide⟩
  · intro h
    rw [hv, Nat.mod_eq_of_lt h]
  · intro h
    rw [ht, Nat.mod_eq_of_lt h]
  · rw [hsnap.2.1, hsnap.2.2.2.2.2.2.2]
  · intro ops s hrun
    obtain ⟨_, h2, h3, h4, h5, _⟩ := runOps_frame ops s0 s hrun
    exact ⟨h3, h4, h2, h5⟩

/-- Witness for C14: setup of a fresh record from meshes of 100 and 50 triangles. -/
theorem totals_invariant_witness :
    CreateTransformedMeshes (Sample.mem [100, 50]) 0 Sample.raw.ctor =
      .done (Sample.afterSetup [100, 50]) ∧
    (Sample.afterSetup [100, 50]).mNumTriangles =
      (Sample.afterSetup [100, 50]).triangleCounts.sum % UINT_MOD ∧
    (Sample.afterSetup [100, 50]).mNumTriangles = 150 :=
  ⟨rfl,
    (totals_invariant Sample.raw (Sample.mem [100, 50]) 0 (Sample.afterSetup [100, 50]) rfl).2.1,
    by decide⟩

end SetupClaims

section SetupFailureClaims

variable {F : Type} [Add F] [Mul F]

/-- C15: `CreateTransformedMeshes` fails (the assertion fires) if and only if at
least one source mesh handle with index below the mesh count is `NULL`; otherwise
it succeeds with a mesh array of that many elements, each initialised from the
corresponding source mesh. -/
theorem setup_fails_iff_null (mem : Nat → CPUTModelDX11 F) (pModel : Nat)
    (s : TransformedModelScalar F) :
    ((∃ k s1, CreateTransformedMeshes mem pModel s = .assertFailed k s1) ↔
      ∃ i, i < (mem pModel).GetMeshCount ∧ (mem pModel).GetMesh i = none) ∧
    ((∀ i, i < (mem pModel).GetMeshCount → (mem pModel).GetMesh i ≠ none) →
      ∃ s1, CreateTransformedMeshes mem pModel s = .done s1 ∧
        s1.mNumMeshes = (mem pModel).GetMeshCount ∧
        s1.mpMeshes.length = (mem pModel).GetMeshCount ∧
        ∀ i, i < (mem pModel).GetMeshCount →
          ∃ m, (mem pModel).GetMesh i = some m ∧
            s1.mpMeshes[i]? = some (TransformedMeshScalar.Initialize m)) := by
  have hout := createLoop_outcome (mem pModel) (mem pModel).GetMeshCount 0
    (setupEntry mem pModel s)
  have hsnap := create_record_snapshot mem pModel s
  have hmesh := createLoop_meshes (mem pModel) (mem pModel).GetMeshCount 0
    (setupEntry mem pModel s) (by simp [setupEntry])
  rw [create_eq_loop] at hsnap ⊢
  have hdone : (∀ i, i < (mem pModel).GetMeshCount → (mem pModel).GetMesh i ≠ none) →
      ∃ s1, CreateTransformedMeshes.loop (mem pModel) (mem pModel).GetMeshCount 0
          (setupEntry mem pModel s) = .done s1 ∧
        s1.mNumMeshes = (mem pModel).GetMeshCount ∧
        s1.mpMeshes.length = (mem pModel).GetMeshCount ∧
        ∀ i, i < (mem pModel).GetMeshCount →
          ∃ m, (mem pModel).GetMesh i = some m ∧
            s1.mpMeshes[i]? = some (TransformedMeshScalar.Initialize m) := by
    intro hall
    obtain ⟨s1, hs1⟩ := hout.1 (fun j _ h2 => hall j (by omega))
    rw [hs1] at hsnap hmesh
    simp only [SetupOutcome.record, SetupOutcome.stoppedAt, Nat.zero_add] at hsnap hmesh
    exact ⟨s1, hs1, hsnap.2.1, hsnap.2.2.2.2.2.2.2,
      fun i hi => hmesh.1 i (Nat.zero_le _) hi⟩
  refine ⟨⟨?_, ?_⟩, hdone⟩
  · rintro ⟨k, s1, h⟩
    obtain ⟨_, h2, h3, _⟩ := hout.2.2 k s1 h
    exact ⟨k, by omega, h3⟩
  · rintro ⟨i, hi, hnull⟩
    cases hr : CreateTransformedMeshes.loop (mem pModel) (mem pModel).GetMeshCount 0
        (setupEntry mem pModel s) with
    | assertFailed k s1 => exact ⟨k, s1, rfl⟩
    | done s1 =>
      rw [hr] at hmesh
      simp only [SetupOutcome.record, SetupOutcome.stoppedAt, Nat.zero_add] at hmesh
      obtain ⟨m, hm, _⟩ := hmesh.1 i (Nat.zero_le _) hi
      rw [hnull] at hm
      exact absurd hm (by simp)

/-- Witness for C15: a model whose two handles are present is set up with both
meshes initialised; with the second handle `NULL` the assertion fires. -/
theorem setup_fails_iff_null_witness :
    (∃ s1, CreateTransformedMeshes (Sample.mem [100, 50]) 0 Sample.raw.ctor = .done s1 ∧
      s1.mNumMeshes = (Sample.mem [100, 50] 0).GetMeshCount ∧
      s1.mpMeshes.length = (Sample.mem [100, 50] 0).GetMeshCount ∧
      ∀ i, i < (Sample.mem [100, 50] 0).GetMeshCount →
        ∃ m, (Sample.mem [100, 50] 0).GetMesh i = some m ∧
          s1.mpMeshes[i]? = some (TransformedMeshScalar.Initialize m)) ∧
    (∃ k s1, CreateTransformedMeshes (Sample.memNull [100, 50] 1) 0 Sample.raw.ctor =
      .assertFailed k s1) :=
  ⟨(setup_fails_iff_null (Sample.mem [100, 50]) 0 Sample.raw.ctor).2 (by decide),
    (setup_fails_iff_null (Sample.memNull [100, 50] 1) 0 Sample.raw.ctor).1.2
      ⟨1, by decide, rfl⟩⟩

/-- C16, as stated, fails: with the handle of mesh 1 `NULL` in a model of two
meshes (100 and 50 triangles), setup of a fresh record stops at the assertion for
mesh 1 with the record already bound to the source model, its mesh count 2, a mesh
array whose first element is initialised, and the 100 triangles and 200 vertices of
mesh 0 accumulated in the totals. -/
theorem setup_failure_counterexample :
    ∃ s1, CreateTransformedMeshes (Sample.memNull [100, 50] 1) 0 Sample.raw.ctor =
        .assertFailed 1 s1 ∧
      (Sample.raw.ctor.mpCPUTModel = none ∧ s1.mpCPUTModel = some 0) ∧
      (Sample.raw.ctor.mNumMeshes = 0 ∧ s1.mNumMeshes = 2) ∧
      (Sample.raw.ctor.mpMeshes = [] ∧ s1.mpMeshes = [⟨200, 100⟩, ⟨0, 0⟩]) ∧
      (Sample.raw.ctor.mNumVertices = 0 ∧ s1.mNumVertices = 200) ∧
      (Sample.raw.ctor.mNumTriangles = 0 ∧ s1.mNumTriangles = 100) ∧
      (Sample.raw.ctor.mWorldMatrix.r3.w = 5 ∧ s1.mWorldMatrix.r3.w = 1) :=
  ⟨_, rfl, by decide, by decide, by decide, by decide, by decide, by decide⟩

/-- C16, amended: when `CreateTransformedMeshes` fails at index `k`, `k` is the
first `NULL` handle below the mesh count, and setup is aborted there with the
record partially populated: it is bound to the source model and holds its mesh
count, world matrix, bounds centre and squared radius; the mesh array is allocated
with the meshes `0 .. k-1` initialised and the others default-constructed; and the
counts of the meshes `0 .. k-1` are accumulated (modulo `2 ^ 32`) on the totals the
record had before the call. -/
theorem setup_failure_state (mem : Nat → CPUTModelDX11 F) (pModel : Nat)
    (s : TransformedModelScalar F) (k : Nat) (s1 : TransformedModelScalar F)
    (h : CreateTransformedMeshes mem pModel s = .assertFailed k s1) :
    (k < (mem pModel).GetMeshCount ∧ (mem pModel).GetMesh k = none ∧
      ∀ j, j < k → (mem pModel).GetMesh j ≠ none) ∧
    s1.mpCPUTModel = some pModel ∧
    s1.mNumMeshes = (mem pModel).GetMeshCount ∧
    s1.mWorldMatrix = (mem pModel).GetWorldMatrix ∧
    s1.mBBCenterOS = (mem pModel).boundsCenterOS ∧
    s1.mRadiusSq = (mem pModel).boundsHalfOS.lengthSq ∧
    s1.mpMeshes.length = (mem pModel).GetMeshCount ∧
    (∀ j, j < k → ∃ m, (mem pModel).GetMesh j = some m ∧
      s1.mpMeshes[j]? = some (TransformedMeshScalar.Initialize m)) ∧
    (∀ j, k ≤ j → j < (mem pModel).GetMeshCount →
      s1.mpMeshes[j]? = some TransformedMeshScalar.empty) ∧
    s1.mNumVertices % UINT_MOD =
      (s.mNumVertices + ((s1.mpMeshes.take k).map TransformedMeshScalar.GetNumVertices).sum) %
        UINT_MOD ∧
    s1.mNumTriangles % UINT_MOD =
      (s.mNumTriangles +
        ((s1.mpMeshes.take k).map TransformedMeshScalar.GetNumTriangles).sum) % UINT_MOD := by
  have hout := (createLoop_outcome (mem pModel) (mem pModel).GetMeshCount 0
    (setupEntry mem pModel s)).2.2
  have hsnap := create_record_snapshot mem pModel s
  have hmesh := createLoop_meshes (mem pModel) (mem pModel).GetMeshCount 0
    (setupEntry mem pModel s) (by simp [setupEntry])
  have htot := createLoop_totals (mem pModel) s.mNumVertices s.mNumTriangles
    (mem pModel).GetMeshCount 0 (setupEntry mem pModel s)
    (by simp [setupEntry]) (by simp [setupEntry]) (by simp [setupEntry])
  rw [create_eq_loop] at h hsnap
  rw [h] at hsnap hmesh htot
  simp only [SetupOutcome.record, SetupOutcome.stoppedAt, Nat.zero_add] at hsnap hmesh htot
  obtain ⟨_, h2, h3, h4⟩ := hout k s1 h
  refine ⟨⟨by omega, h3, fun j hj => h4 j (Nat.zero_le _) hj⟩, hsnap.1, hsnap.2.1,
    hsnap.2.2.1, hsnap.2.2.2.1, hsnap.2.2.2.2.1, hsnap.2.2.2.2.2.2.2, ?_, ?_, htot.1, htot.2⟩
  · intro j hj
    exact hmesh.1 j (Nat.zero_le _) hj
  · intro j hj1 hj2
    rw [hmesh.2 j (Or.inr hj1)]
    simp [setupEntry, hj2]

/-- Witness for C16: the failed setup of the sample model with a `NULL` second
handle. -/
theorem setup_failure_state_witness :
    ∃ s1, CreateTransformedMeshes (Sample.memNull [100, 50] 1) 0 Sample.raw.ctor =
        .assertFailed 1 s1 ∧
      s1.mpCPUTModel = some 0 ∧
      s1.mNumMeshes = (Sample.memNull [100, 50] 1 0).GetMeshCount :=
  ⟨_, rfl,
    (setup_failure_state (Sample.memNull [100, 50] 1) 0 Sample.raw.ctor 1 _ rfl).2.1,
    (setup_failure_state (Sample.memNull [100, 50] 1) 0 Sample.raw.ctor 1 _ rfl).2.2.1⟩

end SetupFailureClaims

/-! ## Claims on the snapshot, gather and the walk -/

section SnapshotClaims

variable {F : Type} [Add F] [Mul F] [One F] [LT F] [DecidableRel (fun a b : F => a < b)]

/-- C17: after setup from the source model at `pModel` (memory `mem0`) and any
classification calls, for any two memories `mem1`, `mem2` at classification time in
which the source model reports the same world-space bounds (its world matrix and
everything else being arbitrary), `InsideViewFrustum(setup, idx)` returns and leaves
the same record, in particular the same `mCumulativeMatrix[idx]` and
`mTooSmall[idx]`; it stores the verdict of the frustum test on the reported bounds
into `mInsideViewFrustum[idx]`, and whenever that verdict is visible,
`mCumulativeMatrix[idx]` is the world matrix captured at setup times
`setup.mViewProjViewport`. -/
theorem world_matrix_snapshot (mem0 : Nat → CPUTModelDX11 F) (pModel : Nat)
    (s00 s0 : TransformedModelScalar F)
    (hsetup : CreateTransformedMeshes mem0 pModel s00 = .done s0)
    (ops : List (ClassifyOp F)) (s : TransformedModelScalar F)
    (hrun : runOps ops s0 = some s)
    (mem1 mem2 : Nat → CPUTModelDX11 F)
    (hcenter : (mem1 pModel).boundsCenterWS = (mem2 pModel).boundsCenterWS)
    (hhalf : (mem1 pModel).boundsHalfWS = (mem2 pModel).boundsHalfWS)
    (setup : BoxTestSetupScalar F) (idx : Fin 2) :
    InsideViewFrustum mem1 setup idx s = InsideViewFrustum mem2 setup idx s ∧
    ∃ s1, InsideViewFrustum mem1 setup idx s = some s1 ∧
      s1.mInsideViewFrustum idx =
        setup.mpCamera.mFrustum.IsVisible (mem1 pModel).boundsCenterWS
          (mem1 pModel).boundsHalfWS ∧
      (setup.mpCamera.mFrustum.IsVisible (mem1 pModel).boundsCenterWS
          (mem1 pModel).boundsHalfWS = true →
        s1.mCumulativeMatrix idx =
          (mem0 pModel).GetWorldMatrix.mul setup.mViewProjViewport) := by
  have hsnap := create_record_snapshot mem0 pModel s00
  rw [hsetup] at hsnap
  simp only [SetupOutcome.record] at hsnap
  obtain ⟨hp, _, _, _, _, hw, _, _⟩ := runOps_frame ops s0 s hrun
  rw [hsnap.1] at hp
  rw [hsnap.2.2.1] at hw
  refine ⟨?_, ?_⟩
  · unfold InsideViewFrustum
    simp only [hp, hcenter, hhalf]
  · unfold InsideViewFrustum
    simp only [hp, setSlot_same]
    split
    · rename_i hvis
      split
      · exact ⟨_, rfl, by simp [hvis], fun _ => by simp [hw]⟩
      · exact ⟨_, rfl, by simp [hvis], fun _ => by simp [hw]⟩
    · rename_i hvis
      exact ⟨_, rfl, by simp, fun hv => absurd hv hvis⟩

/-- Witness for C17: the sample record is set up while the source model has the
identity world matrix; at classification time the model reports the same bounds and
another world matrix.  The result is the one obtained with the unchanged model, the
verdict is visible, and `mCumulativeMatrix[0]` is the identity times the view
matrix, with `w` entry 2 (the later world matrix would give 18). -/
theorem world_matrix_snapshot_witness :
    (Sample.mem [] 0).GetWorldMatrix.r3.w ≠ (Sample.viewProj 9).r3.w ∧
    (InsideViewFrustum (fun _ => { Sample.model [] with GetWorldMatrix := Sample.viewProj 9 })
        (Sample.view true 2 3) 0 (Sample.afterSetup [])).map
      (fun s1 => (s1.mInsideViewFrustum 0, (s1.mCumulativeMatrix 0).r3.w)) = some (true, 2) ∧
    InsideViewFrustum (fun _ => { Sample.model [] with GetWorldMatrix := Sample.viewProj 9 })
        (Sample.view true 2 3) 0 (Sample.afterSetup []) =
      InsideViewFrustum (Sample.mem []) (Sample.view true 2 3) 0 (Sample.afterSetup []) ∧
    ∃ s1,
      InsideViewFrustum (fun _ => { Sample.model [] with GetWorldMatrix := Sample.viewProj 9 })
        (Sample.view true 2 3) 0 (Sample.afterSetup []) = some s1 ∧
      s1.mInsideViewFrustum 0 = true ∧
      s1.mCumulativeMatrix 0 =
        (Sample.mem [] 0).GetWorldMatrix.mul (Sample.view true 2 3).mViewProjViewport ∧
      (s1.mCumulativeMatrix 0).r3.w = 2 :=
  ⟨by decide, by decide,
    (world_matrix_snapshot (Sample.mem []) 0 Sample.raw.ctor (Sample.afterSetup []) rfl []
      (Sample.afterSetup []) rfl
      (fun _ => { Sample.model [] with GetWorldMatrix := Sample.viewProj 9 })
      (Sample.mem []) rfl rfl (Sample.view true 2 3) 0).1,
    match (world_matrix_snapshot (Sample.mem []) 0 Sample.raw.ctor (Sample.afterSetup []) rfl []
      (Sample.afterSetup []) rfl
      (fun _ => { Sample.model [] with GetWorldMatrix := Sample.viewProj 9 })
      (Sample.mem []) rfl rfl (Sample.view true 2 3) 0).2 with
    | ⟨s1, h1, h2, h3⟩ =>
      ⟨s1, h1, h2.trans rfl, h3 rfl, by rw [h3 rfl]; decide⟩⟩

end SnapshotClaims

section GatherClaims

variable {F : Type}

/-- C18: for every record state whose mesh array has `mNumMeshes` elements, every
`meshId` below the mesh count, `triId` and slot, `Gather(out, meshId, triId, idx)`
returns and does exactly what `GetOneTriangleData(out, triId, idx)` of mesh `meshId`
does, whatever the values of `mInsideViewFrustum` and `mTooSmall`. -/
theorem gather_pass_through {σ : Type} (GetOneTriangleData : Nat → Nat → Nat → Fin 2 → σ → σ)
    (s : TransformedModelScalar F) (hwf : s.mpMeshes.length = s.mNumMeshes)
    (xformedPos meshId triId : Nat) (hmesh : meshId < s.mNumMeshes) (idx : Fin 2) (world : σ) :
    Gather GetOneTriangleData s xformedPos meshId triId idx world =
      some (GetOneTriangleData meshId xformedPos triId idx world) ∧
    ∀ (inside tooSmall : Fin 2 → Bool),
      Gather GetOneTriangleData
          { s with mInsideViewFrustum := inside, mTooSmall := tooSmall }
          xformedPos meshId triId idx world =
        some (GetOneTriangleData meshId xformedPos triId idx world) := by
  have hlt : meshId < s.mpMeshes.length := by omega
  refine ⟨?_, ?_⟩
  · simp [Gather, List.getElem?_eq_getElem hlt]
  · intro inside tooSmall
    simp [Gather, List.getElem?_eq_getElem hlt]

/-- Witness for C18: gathering triangle 7 of mesh 1 on a slot that is outside the
frustum; the recording accessor notes the call. -/
theorem gather_pass_through_witness :
    Gather (fun meshId out triId idx (w : List (Nat × Nat × Nat × Fin 2)) =>
        w ++ [(meshId, out, triId, idx)])
      (Sample.record false true [⟨200, 100⟩, ⟨100, 50⟩]) 5 1 7 0 [] = some [(1, 5, 7, 0)] :=
  (gather_pass_through
    (fun meshId out triId idx (w : List (Nat × Nat × Nat × Fin 2)) =>
      w ++ [(meshId, out, triId, idx)])
    (Sample.record false true [⟨200, 100⟩, ⟨100, 50⟩]) rfl 5 1 7 (by decide) 0 []).1

end GatherClaims

/-! ## The walk without overflow: lemmas -/

theorem take_sum_mono (cs : List Nat) (a b : Nat) (h : a ≤ b) :
    (cs.take a).sum ≤ (cs.take b).sum := by
  have h1 : cs.take a = (cs.take b).take a := by
    rw [List.take_take, Nat.min_eq_left h]
  rw [h1]
  exact take_sum_le _ _

/-- Without overflow the qualifying meshes are closed under going to later meshes. -/
theorem qualifying_upward (cs : List Nat) (start i j : Nat) (hsum : cs.sum < UINT_MOD)
    (hi : i ∈ qualifying cs start) (hij : i ≤ j) (hj : j < cs.length) :
    j ∈ qualifying cs start := by
  rw [mem_qualifying] at hi ⊢
  refine ⟨hj, ?_⟩
  have h1 : inclusiveTotal cs i = (cs.take (i + 1)).sum :=
    Nat.mod_eq_of_lt (lt_of_le_of_lt (take_sum_le cs (i + 1)) hsum)
  have h2 : inclusiveTotal cs j = (cs.take (j + 1)).sum :=
    Nat.mod_eq_of_lt (lt_of_le_of_lt (take_sum_le cs (j + 1)) hsum)
  have h3 := take_sum_mono cs (i + 1) (j + 1) (by omega)
  omega

/-- Without overflow some mesh qualifies exactly when `start` is at most the total,
and then the last mesh qualifies. -/
theorem qualifying_ne_nil_iff (cs : List Nat) (start : Nat) (hne : 0 < cs.length)
    (hsum : cs.sum < UINT_MOD) :
    (qualifying cs start ≠ [] ↔ start ≤ cs.sum) ∧
    (start ≤ cs.sum → cs.length - 1 ∈ qualifying cs start) := by
  have hlast : start ≤ cs.sum → cs.length - 1 ∈ qualifying cs start := by
    intro h
    rw [mem_qualifying]
    refine ⟨by omega, ?_⟩
    unfold inclusiveTotal
    have hn : cs.length - 1 + 1 = cs.length := by omega
    rw [hn, List.take_length, Nat.mod_eq_of_lt hsum]
    exact h
  refine ⟨⟨?_, ?_⟩, hlast⟩
  · intro h
    obtain ⟨i, hi⟩ := List.exists_mem_of_ne_nil _ h
    rw [mem_qualifying] at hi
    have h1 : inclusiveTotal cs i ≤ (cs.take (i + 1)).sum := Nat.mod_le _ _
    have h2 := take_sum_le cs (i + 1)
    omega
  · intro h
    exact List.ne_nil_of_mem (hlast h)

theorem qualifying_pairwise (cs : List Nat) (start : Nat) :
    (qualifying cs start).Pairwise (fun a b => a < b) :=
  List.Pairwise.filter _ (List.pairwise_lt_range _)

/-! ## Claims on the walk -/

section NoEarlyExitClaims

variable {F : Type}

/-- C19, as stated, fails when the 32-bit running total wraps: with meshes of 5 and
4294967293 vertices and `start = 4`, mesh 0 qualifies (running total 5) and is
visited, while the later mesh 1 (running total wrapped to 2) is skipped, so the
visited meshes are not a suffix of the mesh sequence. -/
theorem no_early_exit_counterexample :
    (TransformMeshes recordCall (Sample.record true false [⟨5, 0⟩, ⟨4294967293, 0⟩])
      4 10 0 []).map (List.map TransformCall.mesh) = some [0] ∧
    (Sample.record true false [⟨5, 0⟩, ⟨4294967293, 0⟩]).mNumMeshes = 2 := by
  decide

/-- C19, amended: on a slot classified visible and not too small (mesh array of
`mNumMeshes` elements), `TransformMeshes` returns, visits meshes in increasing
order, and the meshes it visits do not depend on `end`; when the total vertex count
is below `2 ^ 32` they form a suffix of the mesh sequence: once a mesh is visited,
every later mesh is visited. -/
theorem no_early_exit (s : TransformedModelScalar F) (idx : Fin 2)
    (hwf : s.mpMeshes.length = s.mNumMeshes)
    (hin : s.mInsideViewFrustum idx = true) (hts : s.mTooSmall idx = false)
    (start end_ : Nat) :
    ∃ trace, TransformMeshes recordCall s start end_ idx [] = some trace ∧
      (trace.map TransformCall.mesh).Pairwise (fun a b => a < b) ∧
      (∀ end2, (TransformMeshes recordCall s start end2 idx []).map
        (List.map TransformCall.mesh) = some (trace.map TransformCall.mesh)) ∧
      (s.vertexCounts.sum < UINT_MOD →
        ∀ i j, i ∈ trace.map TransformCall.mesh → i ≤ j → j < s.mNumMeshes →
          j ∈ trace.map TransformCall.mesh) := by
  refine ⟨(qualifying s.vertexCounts start).map (transformCallFor s start end_ idx),
    ?_, ?_, ?_, ?_⟩
  · rw [transformMeshes_eq_foldl recordCall s start end_ idx [] hwf hin hts,
      foldl_recordCall, List.nil_append]
  · rw [map_mesh_transformCallFor]
    exact qualifying_pairwise _ _
  · intro end2
    rw [transformMeshes_eq_foldl recordCall s start end2 idx [] hwf hin hts,
      foldl_recordCall, List.nil_append, Option.map_some', map_mesh_transformCallFor,
      map_mesh_transformCallFor]
  · intro hsum i j hi hij hj
    rw [map_mesh_transformCallFor] at hi ⊢
    exact qualifying_upward _ _ i j hsum hi hij
      (by simpa [TransformedModelScalar.vertexCounts, hwf] using hj)

/-- Witness for C19: meshes of 200 and 100 vertices, `start = 150`; both meshes are
visited whatever `end` is. -/
theorem no_early_exit_witness :
    ∃ trace, TransformMeshes recordCall (Sample.record true false [⟨200, 100⟩, ⟨100, 50⟩])
        150 160 0 [] = some trace ∧
      (trace.map TransformCall.mesh).Pairwise (fun a b => a < b) ∧
      (∀ end2, (TransformMeshes recordCall (Sample.record true false [⟨200, 100⟩, ⟨100, 50⟩])
        150 end2 0 []).map (List.map TransformCall.mesh) =
          some (trace.map TransformCall.mesh)) ∧
      ((Sample.record true false [⟨200, 100⟩, ⟨100, 50⟩]).vertexCounts.sum < UINT_MOD →
        ∀ i j, i ∈ trace.map TransformCall.mesh → i ≤ j →
          j < (Sample.record true false [⟨200, 100⟩, ⟨100, 50⟩]).mNumMeshes →
          j ∈ trace.map TransformCall.mesh) :=
  no_early_exit (Sample.record true false [⟨200, 100⟩, ⟨100, 50⟩]) 0 rfl rfl rfl 150 160

end NoEarlyExitClaims

section WalkClaims

variable {F : Type} [Add F] [Mul F] [One F] [LT F] [DecidableRel (fun a b : F => a < b)]

/-- C20, as stated, fails for a record whose stored totals are not the totals of
its meshes.  A record set up twice from meshes of 100 and 50 triangles (200 and 100
vertices) has two meshes, a total of 150 triangles, `mNumTriangles = 300` and
`mNumVertices = 600`; classified visible and not too small for slot 0, it receives
no kernel call from either binning dispatcher at `start = 200 ≤ mNumTriangles`, nor
from `TransformMeshes` at `start = 400 ≤ mNumVertices`. -/
theorem range_start_bound_counterexample :
    CreateTransformedMeshes (Sample.mem [100, 50]) 0 Sample.raw.ctor =
      .done (Sample.afterSetup [100, 50]) ∧
    CreateTransformedMeshes (Sample.mem [100, 50]) 0 (Sample.afterSetup [100, 50]) =
      .done (Sample.afterSecondSetup [100, 50]) ∧
    InsideViewFrustum (Sample.mem [100, 50]) (Sample.view true 1 3) 0
      (Sample.afterSecondSetup [100, 50]) = some (Sample.classifiedTwice [100, 50]) ∧
    (Sample.classifiedTwice [100, 50]).mNumMeshes = 2 ∧
    (Sample.classifiedTwice [100, 50]).triangleCounts.sum = 150 ∧
    (Sample.classifiedTwice [100, 50]).vertexCounts.sum = 300 ∧
    (Sample.classifiedTwice [100, 50]).mInsideViewFrustum 0 = true ∧
    (Sample.classifiedTwice [100, 50]).mTooSmall 0 = false ∧
    (Sample.classifiedTwice [100, 50]).mNumTriangles = 300 ∧
    (Sample.classifiedTwice [100, 50]).mNumVertices = 600 ∧
    BinTransformedTrianglesST recordCall (Sample.classifiedTwice [100, 50]) 0 0 200 250
      ⟨0, 0, 0, 0⟩ 0 [] = some [] ∧
    BinTransformedTrianglesMT recordCall (Sample.classifiedTwice [100, 50]) 0 0 200 250
      ⟨0, 0, 0, 0⟩ 0 [] = some [] ∧
    (TransformMeshes recordCall (Sample.classifiedTwice [100, 50]) 400 450 0 []).map
      (List.map TransformCall.mesh) = some [] :=
  ⟨by rfl, by rfl, by rfl, by decide, by decide, by decide, by decide, by decide, by decide,
    by decide, by decide, by decide, by decide⟩

/-- C20, amended: for a record with at least one mesh (mesh array of `mNumMeshes`
elements), on a slot classified visible and not too small: when the total triangle
count of the meshes is below `2 ^ 32` and `mNumTriangles` equals it,
`BinTransformedTrianglesST` / `MT` make at least one kernel call if and only if
`start ≤ mNumTriangles`, and then the last mesh is called (so also for
`start = mNumTriangles`); likewise `TransformMeshes` with `mNumVertices` and the
total vertex count.  The stored totals equal the totals of the meshes, when these
are below `2 ^ 32`, in every record set up once from a freshly constructed one and
then classified. -/
theorem range_start_bound (s : TransformedModelScalar F) (idx : Fin 2)
    (taskId modelId start end_ : Nat) (buffers : BinBuffers) :
    (s.mpMeshes.length = s.mNumMeshes → s.mInsideViewFrustum idx = true →
      s.mTooSmall idx = false → 0 < s.mNumMeshes →
      (s.triangleCounts.sum < UINT_MOD → s.mNumTriangles = s.triangleCounts.sum →
        ∃ trace,
          BinTransformedTrianglesST recordCall s taskId modelId start end_ buffers idx [] =
            some trace ∧
          BinTransformedTrianglesMT recordCall s taskId modelId start end_ buffers idx [] =
            some trace ∧
          (trace ≠ [] ↔ start ≤ s.mNumTriangles) ∧
          (start ≤ s.mNumTriangles →
            binCallFor taskId modelId start end_ buffers idx (s.mNumMeshes - 1) ∈ trace)) ∧
      (s.vertexCounts.sum < UINT_MOD → s.mNumVertices = s.vertexCounts.sum →
        ∃ trace, TransformMeshes recordCall s start end_ idx [] = some trace ∧
          (trace ≠ [] ↔ start ≤ s.mNumVertices) ∧
          (start ≤ s.mNumVertices →
            transformCallFor s start end_ idx (s.mNumMeshes - 1) ∈ trace))) ∧
    (∀ (raw : TransformedModelScalar F) (mem : Nat → CPUTModelDX11 F) (pModel : Nat)
        (s0 : TransformedModelScalar F) (ops : List (ClassifyOp F)),
      CreateTransformedMeshes mem pModel raw.ctor = .done s0 → runOps ops s0 = some s →
      s.mpMeshes.length = s.mNumMeshes ∧
      (s.triangleCounts.sum < UINT_MOD → s.mNumTriangles = s.triangleCounts.sum) ∧
      (s.vertexCounts.sum < UINT_MOD → s.mNumVertices = s.vertexCounts.sum)) := by
  refine ⟨?_, ?_⟩
  · intro hwf hin hts hmeshes
    have hlenT : s.triangleCounts.length = s.mNumMeshes := by
      simp [TransformedModelScalar.triangleCounts, hwf]
    have hlenV : s.vertexCounts.length = s.mNumMeshes := by
      simp [TransformedModelScalar.vertexCounts, hwf]
    refine ⟨?_, ?_⟩
    · intro hsum hts2
      obtain ⟨hiff, hlast⟩ := qualifying_ne_nil_iff s.triangleCounts start (by omega) hsum
      refine ⟨(qualifying s.triangleCounts start).map
        (binCallFor taskId modelId start end_ buffers idx), ?_, ?_, ?_, ?_⟩
      · rw [binST_eq_foldl recordCall s taskId modelId start end_ buffers idx [] hwf hin hts,
          foldl_recordCall, List.nil_append]
      · rw [binMT_eq_foldl recordCall s taskId modelId start end_ buffers idx [] hwf hin hts,
          foldl_recordCall, List.nil_append]
      · rw [hts2, ← hiff]
        simp
      · intro h
        rw [hts2] at h
        rw [← hlenT]
        exact List.mem_map_of_mem _ (hlast h)
    · intro hsum hvs
      obtain ⟨hiff, hlast⟩ := qualifying_ne_nil_iff s.vertexCounts start (by omega) hsum
      refine ⟨(qualifying s.vertexCounts start).map (transformCallFor s start end_ idx),
        ?_, ?_, ?_⟩
      · rw [transformMeshes_eq_foldl recordCall s start end_ idx [] hwf hin hts,
          foldl_recordCall, List.nil_append]
      · rw [hvs, ← hiff]
        simp
      · intro h
        rw [hvs] at h
        rw [← hlenV]
        exact List.mem_map_of_mem _ (hlast h)
  · intro raw mem pModel s0 ops hsetup hrun
    obtain ⟨hv0, ht0⟩ := create_fresh_totals mem pModel raw s0 hsetup
    have hsnap := create_record_snapshot mem pModel raw.ctor
    rw [hsetup] at hsnap
    simp only [SetupOutcome.record] at hsnap
    obtain ⟨_, hn, hv, ht, hm, _⟩ := runOps_frame ops s0 s hrun
    refine ⟨?_, ?_, ?_⟩
    · rw [hm, hn, hsnap.2.1, hsnap.2.2.2.2.2.2.2]
    · intro hsum
      rw [ht, ht0]
      simp only [TransformedModelScalar.triangleCounts] at hsum ⊢
      rw [← hm, Nat.mod_eq_of_lt hsum]
    · intro hsum
      rw [hv, hv0]
      simp only [TransformedModelScalar.vertexCounts] at hsum ⊢
      rw [← hm, Nat.mod_eq_of_lt hsum]

/-- Witness for C20: the sample model of 100 and 50 triangles, set up once,
classified visible and not too small for slot 0, binned from
`start = 150 = mNumTriangles`: the last mesh is called. -/
theorem range_start_bound_witness :
    (Sample.classified [100, 50]).mNumTriangles = 150 ∧
    (Sample.classified [100, 50]).triangleCounts.sum = 150 ∧
    ∃ trace,
      BinTransformedTrianglesST recordCall (Sample.classified [100, 50]) 0 0 150 160
        ⟨0, 0, 0, 0⟩ 0 [] = some trace ∧
      BinTransformedTrianglesMT recordCall (Sample.classified [100, 50]) 0 0 150 160
        ⟨0, 0, 0, 0⟩ 0 [] = some trace ∧
      (trace ≠ [] ↔ 150 ≤ (Sample.classified [100, 50]).mNumTriangles) ∧
      (150 ≤ (Sample.classified [100, 50]).mNumTriangles →
        binCallFor 0 0 150 160 ⟨0, 0, 0, 0⟩ 0 ((Sample.classified [100, 50]).mNumMeshes - 1) ∈
          trace) :=
  ⟨by decide, by decide,
    ((range_start_bound (Sample.classified [100, 50]) 0 0 0 150 160 ⟨0, 0, 0, 0⟩).1
      (by decide) (by decide) (by decide) (by decide)).1 (by decide) (by decide)⟩

end WalkClaims

end OcclusionCulling
